import Mathlib

/-!
# Verification of the metaloop granular looper core

Shallow embedding of the metaloop audio engine (Rust) in Lean 4.
`f32` samples, gains and beat times are modelled as `ℚ` (all constants
appearing in the claims are exactly representable and the arithmetic on
them is exact); `usize` counters are modelled as `ℕ`, with truncated
subtraction only at spots where the Rust code cannot underflow (noted
inline).  Assertions (`assert!` in the source) are modelled by explicit
`Prop`-valued predicates next to the total functions they guard.
-/

namespace Metaloop

/-- `lerp` from src/delay_line.rs: `(b - a) * f + a`. -/
def lerp (a b f : ℚ) : ℚ := (b - a) * f + a

/-- `RampedValue` from src/ramped_value.rs. -/
structure RampedValue where
  value : ℚ
  target_value : ℚ
  initial_value : ℚ
  ramp_time_counter : ℕ
  ramp_time_total : ℕ
deriving DecidableEq, Repr

namespace RampedValue

/-- `RampedValue::new`. -/
def new (v : ℚ) : RampedValue :=
  { value := v, target_value := v, initial_value := v
    ramp_time_counter := 0, ramp_time_total := 0 }

/-- `RampedValue::set`: sets `value` and `initial_value`, zeroes the counter.
(Note: the source does not touch `target_value` here.) -/
def set (s : RampedValue) (v : ℚ) : RampedValue :=
  { s with value := v, initial_value := v, ramp_time_counter := 0 }

/-- `RampedValue::ramp`. -/
def ramp (s : RampedValue) (target : ℚ) (ramp_time : ℕ) : RampedValue :=
  { s with ramp_time_counter := ramp_time + 1, ramp_time_total := ramp_time + 1
           target_value := target }

/-- `RampedValue::tick`, returning the new state and the returned sample. -/
def tick (s : RampedValue) : RampedValue × ℚ :=
  if s.ramp_time_counter = 0 then (s, s.target_value)
  else
    let c := s.ramp_time_counter - 1
    let frac : ℚ := (c : ℚ) / (s.ramp_time_total : ℚ)
    let v := lerp s.initial_value s.target_value (1 - frac)
    ({ s with ramp_time_counter := c, value := v }, v)

/-- State after `n` consecutive `tick` calls. -/
def tickN (s : RampedValue) : ℕ → RampedValue
  | 0 => s
  | n + 1 => ((s.tickN n).tick).1

end RampedValue

lemma RampedValue.tick_of_counter_zero (s : RampedValue)
    (h : s.ramp_time_counter = 0) : s.tick = (s, s.target_value) := by
  simp [RampedValue.tick, h]

/-- After `ramp t n`, the state reached by `k ≤ n + 1` ticks in closed form. -/
lemma RampedValue.tickN_ramp (s : RampedValue) (t : ℚ) (n : ℕ) :
    ∀ k, k ≤ n + 1 →
      (s.ramp t n).tickN k =
        { value := if k = 0 then s.value else
            lerp s.initial_value t (1 - ((n + 1 - k : ℕ) : ℚ) / ((n + 1 : ℕ) : ℚ))
          target_value := t
          initial_value := s.initial_value
          ramp_time_counter := n + 1 - k
          ramp_time_total := n + 1 } := by
  intro k hk
  induction k with
  | zero => simp [RampedValue.tickN, RampedValue.ramp]
  | succ m ih =>
    have hm : m ≤ n + 1 := Nat.le_of_succ_le hk
    rw [RampedValue.tickN, ih hm]
    have hc : n + 1 - m ≠ 0 := by omega
    have hsub : n + 1 - m - 1 = n + 1 - (m + 1) := by omega
    simp [RampedValue.tick, hc, hsub]

/-- C9 helper: the `(n+1)`-th tick after `ramp t n` returns `t` exactly. -/
lemma RampedValue.tickN_ramp_final (s : RampedValue) (t : ℚ) (n : ℕ) :
    (s.ramp t n).tickN (n + 1) =
      { value := t, target_value := t, initial_value := s.initial_value
        ramp_time_counter := 0, ramp_time_total := n + 1 } := by
  rw [RampedValue.tickN_ramp s t n (n + 1) le_rfl]
  simp [lerp]

/-- Round to nearest integer, ties to even (the IEEE 754 tie rule). -/
def rne (x : ℚ) : ℤ :=
  if x - Int.floor x < 1 / 2 then Int.floor x
  else if 1 / 2 < x - Int.floor x then Int.floor x + 1
  else if Int.floor x % 2 = 0 then Int.floor x else Int.floor x + 1

/-- `f32` round-to-nearest-even at 24-bit significand precision (the normal
range of `f32`; every operand below is a normal number, so subnormal and
overflow handling are never reached). -/
def fl (q : ℚ) : ℚ :=
  if q = 0 then 0
  else (rne (q / 2 ^ (Int.log 2 |q| - 23)) : ℚ) * 2 ^ (Int.log 2 |q| - 23)

/-- The `f32` value the last counting-down ramp tick returns after
`ramp(target, n)`: at that tick the counter is 1, so
`frac = fl(0 / total) = 0` and `1 - frac = 1` exactly, and the returned
`lerp(initial_value, target_value, 1.0) = (target - initial) * 1.0 + initial`
rounds once per inexact operation (the multiplication by `1.0` is exact). -/
def rampFinalTickF32 (initial target : ℚ) : ℚ :=
  fl (fl (target - initial) + initial)

/-- `rne` fixes integers. -/
lemma rne_int (z : ℤ) : rne (z : ℚ) = z := by
  unfold rne
  rw [Int.floor_intCast]
  norm_num

/-- Evaluation rule for `Int.log 2` on concrete rationals. -/
lemma Int_log_eval (q : ℚ) (z : ℤ) (hq : 0 < q) (h1 : (2 : ℚ) ^ z ≤ q)
    (h2 : q < (2 : ℚ) ^ (z + 1)) : Int.log 2 q = z := by
  have hb : (((2 : ℕ)) : ℚ) = (2 : ℚ) := by norm_num
  have hle : z ≤ Int.log 2 q := by
    rw [← Int.zpow_le_iff_le_log (by norm_num) hq, hb]
    exact h1
  have hlt : Int.log 2 q < z + 1 := by
    rw [← Int.lt_zpow_iff_log_lt (by norm_num) hq, hb]
    exact h2
  omega

lemma fl_zero : fl 0 = 0 := by
  unfold fl
  rw [if_pos rfl]

lemma fl_one : fl 1 = 1 := by
  unfold fl
  rw [if_neg one_ne_zero, abs_one, Int.log_one_right]
  rw [show (1 : ℚ) / 2 ^ ((0 : ℤ) - 23) = ((8388608 : ℤ) : ℚ) by norm_num]
  rw [rne_int]
  norm_num

lemma fl_neg_one : fl (-1) = -1 := by
  unfold fl
  rw [if_neg (by norm_num), show |(-1 : ℚ)| = 1 by norm_num, Int.log_one_right]
  rw [show (-1 : ℚ) / 2 ^ ((0 : ℤ) - 23) = ((-8388608 : ℤ) : ℚ) by norm_num]
  rw [rne_int]
  norm_num

/-- `2^-27` is itself a (normal) `f32` value. -/
lemma fl_pow_neg27 : fl ((2 : ℚ) ^ (-27 : ℤ)) = (2 : ℚ) ^ (-27 : ℤ) := by
  unfold fl
  rw [if_neg (by positivity)]
  rw [abs_of_pos (by positivity : (0 : ℚ) < (2 : ℚ) ^ (-27 : ℤ))]
  have hlog : Int.log 2 ((2 : ℚ) ^ (-27 : ℤ)) = -27 := by
    apply Int_log_eval _ _ (by positivity) le_rfl
    norm_num
  rw [hlog]
  rw [show (2 : ℚ) ^ (-27 : ℤ) / 2 ^ ((-27 : ℤ) - 23) = ((8388608 : ℤ) : ℚ) by norm_num]
  rw [rne_int]
  norm_num

/-- The rounding at the heart of the counterexample: `2^-27` is below half
an ulp of 1, so `2^-27 - 1` rounds to `-1` in `f32`. -/
lemma fl_sub_small : fl ((2 : ℚ) ^ (-27 : ℤ) - 1) = -1 := by
  unfold fl
  rw [if_neg (by norm_num)]
  rw [show |(2 : ℚ) ^ (-27 : ℤ) - 1| = 1 - (2 : ℚ) ^ (-27 : ℤ) by
    rw [abs_of_neg (by norm_num)]
    ring]
  have hlog : Int.log 2 (1 - (2 : ℚ) ^ (-27 : ℤ)) = -1 := by
    apply Int_log_eval _ _ (by norm_num) (by norm_num)
    norm_num
  rw [hlog]
  rw [show ((2 : ℚ) ^ (-27 : ℤ) - 1) / 2 ^ ((-1 : ℤ) - 23) = -134217727 / 8 by norm_num]
  have hfl : Int.floor ((-134217727 / 8 : ℚ)) = -16777216 := by
    norm_num [Int.floor_eq_iff]
  rw [show rne (-134217727 / 8) = -16777216 by norm_num [rne, hfl]]
  norm_num

lemma rampFinalTickF32_zero_one : rampFinalTickF32 0 1 = 1 := by
  unfold rampFinalTickF32
  rw [show (1 : ℚ) - 0 = 1 by ring, fl_one, show (1 : ℚ) + 0 = 1 by ring, fl_one]

lemma rampFinalTickF32_one_zero : rampFinalTickF32 1 0 = 0 := by
  unfold rampFinalTickF32
  rw [show (0 : ℚ) - 1 = -1 by ring, fl_neg_one, show (-1 : ℚ) + 1 = 0 by ring,
    fl_zero]

lemma rampFinalTickF32_stale : rampFinalTickF32 1 ((2 : ℚ) ^ (-27 : ℤ)) = 0 := by
  unfold rampFinalTickF32
  rw [fl_sub_small, show (-1 : ℚ) + 1 = 0 by ring, fl_zero]

/-- **C9 counterexample**.  The claim's `f32` exactness fails at ordinary
normal inputs: `1.0` and `2^-27` are both exact `f32` values, yet the last
counting-down tick of `ramp(2^-27, n)` started from value `1.0` computes
`fl(fl(2^-27 - 1) + 1) = fl(-1 + 1) = 0 ≠ 2^-27` — the `(n+1)`-th tick
returns `0.0`, not the target. -/
theorem ramp_final_tick_f32_counterexample :
    fl 1 = 1 ∧ fl ((2 : ℚ) ^ (-27 : ℤ)) = (2 : ℚ) ^ (-27 : ℤ) ∧
    rampFinalTickF32 1 ((2 : ℚ) ^ (-27 : ℤ)) = 0 ∧
    (2 : ℚ) ^ (-27 : ℤ) ≠ 0 :=
  ⟨fl_one, fl_pow_neg27, rampFinalTickF32_stale, by norm_num⟩

/-- **C9** (amended).  After `ramp(target, n)`, exactness holds as claimed
only from the `(n+2)`-th tick onward: the counter-0 path of `tick` returns
the stored `target_value` field with no arithmetic at all, so those ticks
return the target bit-exactly even in `f32` (first conjunct, proved over
the model, whose every step on this path is a field copy).  The `(n+1)`-th
(last counting-down) tick instead computes
`lerp(initial_value, target, 1.0)`, in `f32`
`fl(fl(target - initial) + initial)`; that is exact for the `0 ↔ 1` fade
and dry ramps the engine itself performs (second and third conjuncts), but
not for every `f32` pair — see the counterexample. -/
theorem ramped_value_ramp_exact_amended (s : RampedValue) (t : ℚ) (n : ℕ) :
    (∀ m, n + 1 ≤ m → (((s.ramp t n).tickN m).tick).2 = t) ∧
    rampFinalTickF32 0 1 = 1 ∧ rampFinalTickF32 1 0 = 0 := by
  refine ⟨?_, rampFinalTickF32_zero_one, rampFinalTickF32_one_zero⟩
  have hfin := RampedValue.tickN_ramp_final s t n
  intro m hm
  obtain ⟨j, rfl⟩ : ∃ j, m = (n + 1) + j := ⟨m - (n + 1), by omega⟩
  have stable : ∀ j, (s.ramp t n).tickN ((n + 1) + j) = (s.ramp t n).tickN (n + 1) := by
    intro j
    induction j with
    | zero => rfl
    | succ i ih =>
      have hco : (n + 1) + (i + 1) = ((n + 1) + i) + 1 := by omega
      rw [hco, RampedValue.tickN, ih, hfin,
        RampedValue.tick_of_counter_zero _ rfl]
  rw [stable j, hfin, RampedValue.tick_of_counter_zero _ rfl]

/-- Witness for the amended C9: `new(0); ramp(5, 3)` returns 5 on the fifth
tick (one past the ramp's end), and the engine's own fade-in ramp endpoint
is `f32`-exact. -/
theorem ramped_value_ramp_exact_amended_witness :
    ((((RampedValue.new 0).ramp 5 3).tickN 4).tick).2 = 5 ∧
    rampFinalTickF32 0 1 = 1 :=
  ⟨(ramped_value_ramp_exact_amended (RampedValue.new 0) 5 3).1 4 (by norm_num),
   (ramped_value_ramp_exact_amended (RampedValue.new 0) 5 3).2.1⟩

/-- **C7** (code bug evidence).  Evaluating the code at the failing input:
after `new(0)`, `ramp(5, 3)`, `set(2)`, the next `tick()` returns `5` (the
cancelled ramp's target), not the value `2` that was just set: `set` does
not update `target_value`, and `tick` returns `target_value` whenever the
counter is zero. -/
theorem ramped_value_set_returns_stale_target :
    ((((RampedValue.new 0).ramp 5 3).set 2).tick).2 = 5 ∧
    ((((RampedValue.new 0).ramp 5 3).set 2).tick).2 ≠ 2 := by
  constructor
  · rfl
  · decide

/-- `Grain` from src/grain.rs. -/
structure Grain where
  scheduled_wait : ℕ
  delay_pos : ℚ
  duration : ℕ
  fade_duration : ℕ
  elapsed_sample_count : ℕ
  offset : ℚ
  sample_increment : ℚ
  fade_ramp : RampedValue
deriving DecidableEq, Repr

namespace Grain

/-- `Grain::new`. -/
def new (scheduled_wait : ℕ) (offset : ℚ) (duration fade : ℕ)
    (reverse : Bool) (speed : ℚ) : Grain :=
  let actual_fade := if fade * 2 > duration then duration / 2 else fade
  let start_delay := if reverse then offset - (duration : ℚ) else offset - 1
  let sample_increment := if reverse then -speed else speed
  { scheduled_wait := scheduled_wait, delay_pos := start_delay
    duration := duration, fade_duration := actual_fade
    elapsed_sample_count := 0, offset := offset
    sample_increment := sample_increment, fade_ramp := RampedValue.new 1 }

/-- `Grain::is_finished`. -/
def isFinished (g : Grain) : Bool :=
  g.elapsed_sample_count == g.duration || g.duration == 0

/-- `Grain::is_waiting`. -/
def isWaiting (g : Grain) : Bool :=
  decide (0 < g.scheduled_wait)

/-- `Grain::tick`: returns the updated grain and `(delay_position, gain)`. -/
def tick (g : Grain) : Grain × (ℚ × ℚ) :=
  if g.isFinished then (g, (0, 0))
  else if g.isWaiting then
    ({ g with scheduled_wait := g.scheduled_wait - 1 }, (0, 0))
  else
    let r0 :=
      if g.elapsed_sample_count = 0 ∧ g.scheduled_wait = 0 then
        (g.fade_ramp.set 0).ramp 1 g.fade_duration
      else if g.elapsed_sample_count = g.duration - g.fade_duration then
        (g.fade_ramp.set 1).ramp 0 g.fade_duration
      else g.fade_ramp
    let return_delay := g.delay_pos
    let tr := r0.tick
    ({ g with delay_pos := g.delay_pos - g.sample_increment
              elapsed_sample_count := g.elapsed_sample_count + 1
              fade_ramp := tr.1 },
     (return_delay, tr.2))

/-- `Grain::stop`.  (`duration - fade_duration` is `usize` subtraction in the
source; every grain the code constructs satisfies `fade_duration ≤ duration`,
so truncated subtraction is faithful.) -/
def stop (g : Grain) : Grain :=
  if g.duration - g.fade_duration < g.elapsed_sample_count then g
  else { g with duration := g.elapsed_sample_count + g.fade_duration }

/-- State after `n` consecutive ticks. -/
def tickN (g : Grain) : ℕ → Grain
  | 0 => g
  | n + 1 => ((g.tickN n).tick).1

/-- The `(delay position, gain)` pairs returned by the first `n` ticks. -/
def outputs (g : Grain) : ℕ → List (ℚ × ℚ)
  | 0 => []
  | n + 1 => (g.tick).2 :: ((g.tick).1.outputs n)

end Grain

lemma Grain.tickN_succ (g : Grain) (n : ℕ) :
    g.tickN (n + 1) = ((g.tickN n).tick).1 := rfl

/-- `stop` on a grain already within its fade-out region is a no-op. -/
lemma Grain.stop_of_fading_out (g : Grain)
    (h : g.duration - g.fade_duration < g.elapsed_sample_count) :
    g.stop = g := by
  simp [Grain.stop, h]

/-- `stop` is idempotent on every grain. -/
lemma Grain.stop_stop (g : Grain) : g.stop.stop = g.stop := by
  unfold Grain.stop
  by_cases h : g.duration - g.fade_duration < g.elapsed_sample_count
  · simp [h]
  · simp only [h, if_false]
    have : ¬ (g.elapsed_sample_count + g.fade_duration - g.fade_duration <
        g.elapsed_sample_count) := by omega
    simp [this]

/-- A mid-ramp tick returns exactly the value it stores. -/
lemma RampedValue.tick_snd (s : RampedValue) (h : s.ramp_time_counter ≠ 0) :
    (s.tick).2 = ((s.tick).1).value := by
  simp [RampedValue.tick, h]

/-- The counter of the ramp state reached by `k ≤ n+1` ticks after `ramp t n`. -/
lemma RampedValue.tickN_ramp_counter (s : RampedValue) (t : ℚ) (n k : ℕ)
    (hk : k ≤ n + 1) :
    ((s.ramp t n).tickN k).ramp_time_counter = n + 1 - k := by
  rw [RampedValue.tickN_ramp s t n k hk]

/-- Value reached `k+1` ticks into a fade-out ramp `1 → 0` over `f` steps. -/
lemma RampedValue.fadeout_value (r : RampedValue) (f k : ℕ) (hk : k ≤ f) :
    (((r.set 1).ramp 0 f).tickN (k + 1)).value = ((f - k : ℕ) : ℚ) / ((f + 1 : ℕ) : ℚ) := by
  rw [RampedValue.tickN_ramp (r.set 1) 0 f (k + 1) (by omega)]
  have h1 : f + 1 - (k + 1) = f - k := by omega
  simp only [RampedValue.set, h1, lerp, Nat.succ_ne_zero, if_false, Nat.add_eq_zero,
    and_false, one_ne_zero]
  ring

/-- Value reached `k+1` ticks into a fade-in ramp `0 → 1` over `f` steps. -/
lemma RampedValue.fadein_value (r : RampedValue) (f k : ℕ) (hk : k ≤ f) :
    (((r.set 0).ramp 1 f).tickN (k + 1)).value = ((k + 1 : ℕ) : ℚ) / ((f + 1 : ℕ) : ℚ) := by
  rw [RampedValue.tickN_ramp (r.set 0) 1 f (k + 1) (by omega)]
  have h1 : f + 1 - (k + 1) = f - k := by omega
  simp only [RampedValue.set, h1, lerp, Nat.succ_ne_zero, if_false, Nat.add_eq_zero,
    and_false, one_ne_zero]
  have h2 : ((f - k : ℕ) : ℚ) = (f : ℚ) - (k : ℚ) := Nat.cast_sub hk
  rw [h2]
  push_cast
  have hne : ((f : ℚ) + 1) ≠ 0 := by positivity
  field_simp
  ring

lemma Grain.isFinished_false (g : Grain) (h1 : g.elapsed_sample_count ≠ g.duration)
    (h2 : g.duration ≠ 0) : g.isFinished = false := by
  simp [Grain.isFinished, h1, h2]

lemma Grain.isWaiting_false (g : Grain) (h : g.scheduled_wait = 0) :
    g.isWaiting = false := by
  simp [Grain.isWaiting, h]

/-- `tick` of an active grain strictly between its fade regions: it just
advances position/counter and ticks the existing envelope ramp. -/
lemma Grain.tick_mid (g : Grain) (hfin : g.isFinished = false)
    (hw : g.isWaiting = false)
    (h1 : ¬ (g.elapsed_sample_count = 0 ∧ g.scheduled_wait = 0))
    (h2 : g.elapsed_sample_count ≠ g.duration - g.fade_duration) :
    g.tick = ({ g with delay_pos := g.delay_pos - g.sample_increment
                       elapsed_sample_count := g.elapsed_sample_count + 1
                       fade_ramp := (g.fade_ramp.tick).1 },
              (g.delay_pos, (g.fade_ramp.tick).2)) := by
  simp [Grain.tick, hfin, hw, h1, h2]

/-- `tick` of an active grain at the start of its fade-out region. -/
lemma Grain.tick_fadeout (g : Grain) (hfin : g.isFinished = false)
    (hw : g.isWaiting = false)
    (h1 : ¬ (g.elapsed_sample_count = 0 ∧ g.scheduled_wait = 0))
    (h2 : g.elapsed_sample_count = g.duration - g.fade_duration) :
    g.tick = ({ g with delay_pos := g.delay_pos - g.sample_increment
                       elapsed_sample_count := g.elapsed_sample_count + 1
                       fade_ramp := (((g.fade_ramp.set 1).ramp 0 g.fade_duration).tick).1 },
              (g.delay_pos, (((g.fade_ramp.set 1).ramp 0 g.fade_duration).tick).2)) := by
  simp [Grain.tick, hfin, hw, if_neg h1, if_pos h2]

/-- `tick` of a grain on its very first active sample (fade-in trigger). -/
lemma Grain.tick_first (g : Grain) (hfin : g.isFinished = false)
    (h1 : g.elapsed_sample_count = 0) (h2 : g.scheduled_wait = 0) :
    g.tick = ({ g with delay_pos := g.delay_pos - g.sample_increment
                       elapsed_sample_count := g.elapsed_sample_count + 1
                       fade_ramp := (((g.fade_ramp.set 0).ramp 1 g.fade_duration).tick).1 },
              (g.delay_pos, (((g.fade_ramp.set 0).ramp 1 g.fade_duration).tick).2)) := by
  have hw : g.isWaiting = false := Grain.isWaiting_false g h2
  simp [Grain.tick, hfin, hw, h1, h2]

/-- Closed form of the run of a stopped grain, case `elapsed ≥ 1`:
after the `stop`, `k ∈ [1, fade]` further ticks give this state. -/
lemma Grain.stop_run_pos (g : Grain) (hw : g.scheduled_wait = 0)
    (he : 1 ≤ g.elapsed_sample_count) :
    ∀ k, 1 ≤ k → k ≤ g.fade_duration →
      ({ g with duration := g.elapsed_sample_count + g.fade_duration } : Grain).tickN k =
        { g with
            duration := g.elapsed_sample_count + g.fade_duration,
            elapsed_sample_count := g.elapsed_sample_count + k,
            delay_pos := g.delay_pos - (k : ℚ) * g.sample_increment,
            fade_ramp := ((g.fade_ramp.set 1).ramp 0 g.fade_duration).tickN k } := by
  intro k hk1 hk2
  induction k, hk1 using Nat.le_induction with
  | base =>
    have hfin : ({ g with duration := g.elapsed_sample_count + g.fade_duration } : Grain).isFinished = false := by
      refine Grain.isFinished_false _ ?_ ?_
      · show g.elapsed_sample_count ≠ g.elapsed_sample_count + g.fade_duration
        omega
      · show g.elapsed_sample_count + g.fade_duration ≠ 0
        omega
    have hwait : ({ g with duration := g.elapsed_sample_count + g.fade_duration } : Grain).isWaiting = false :=
      Grain.isWaiting_false _ hw
    have h1 : ¬ (({ g with duration := g.elapsed_sample_count + g.fade_duration } : Grain).elapsed_sample_count = 0 ∧
        ({ g with duration := g.elapsed_sample_count + g.fade_duration } : Grain).scheduled_wait = 0) := by
      intro h
      exact absurd h.1 (by show g.elapsed_sample_count ≠ 0; omega)
    have h2 : ({ g with duration := g.elapsed_sample_count + g.fade_duration } : Grain).elapsed_sample_count =
        ({ g with duration := g.elapsed_sample_count + g.fade_duration } : Grain).duration -
        ({ g with duration := g.elapsed_sample_count + g.fade_duration } : Grain).fade_duration := by
      show g.elapsed_sample_count = g.elapsed_sample_count + g.fade_duration - g.fade_duration
      omega
    show ((({ g with duration := g.elapsed_sample_count + g.fade_duration } : Grain)).tick).1 = _
    rw [Grain.tick_fadeout _ hfin hwait h1 h2]
    simp [RampedValue.tickN]
  | succ m hm ih =>
    have hm2 : m ≤ g.fade_duration := by omega
    rw [Grain.tickN_succ, ih hm2]
    have hfin : (({ g with
        duration := g.elapsed_sample_count + g.fade_duration,
        elapsed_sample_count := g.elapsed_sample_count + m,
        delay_pos := g.delay_pos - (m : ℚ) * g.sample_increment,
        fade_ramp := ((g.fade_ramp.set 1).ramp 0 g.fade_duration).tickN m } : Grain)).isFinished = false := by
      refine Grain.isFinished_false _ ?_ ?_
      · show g.elapsed_sample_count + m ≠ g.elapsed_sample_count + g.fade_duration
        omega
      · show g.elapsed_sample_count + g.fade_duration ≠ 0
        omega
    have hwait : (({ g with
        duration := g.elapsed_sample_count + g.fade_duration,
        elapsed_sample_count := g.elapsed_sample_count + m,
        delay_pos := g.delay_pos - (m : ℚ) * g.sample_increment,
        fade_ramp := ((g.fade_ramp.set 1).ramp 0 g.fade_duration).tickN m } : Grain)).isWaiting = false :=
      Grain.isWaiting_false _ hw
    have h1 : ¬ (g.elapsed_sample_count + m = 0 ∧ g.scheduled_wait = 0) := by
      intro h; omega
    have h2 : g.elapsed_sample_count + m ≠
        g.elapsed_sample_count + g.fade_duration - g.fade_duration := by omega
    rw [Grain.tick_mid _ hfin hwait h1 h2]
    simp only [Grain.mk.injEq, and_true, true_and]
    refine ⟨?_, ?_, rfl⟩
    · push_cast
      ring
    · omega

/-- Closed form of the run of a stopped grain, case `elapsed = 0`
(the grain is stopped before producing any sample; the first tick then
triggers the fade-in branch instead). -/
lemma Grain.stop_run_zero (g : Grain) (hw : g.scheduled_wait = 0)
    (he : g.elapsed_sample_count = 0) :
    ∀ k, 1 ≤ k → k ≤ g.fade_duration →
      ({ g with duration := g.elapsed_sample_count + g.fade_duration } : Grain).tickN k =
        { g with
            duration := g.elapsed_sample_count + g.fade_duration,
            elapsed_sample_count := k,
            delay_pos := g.delay_pos - (k : ℚ) * g.sample_increment,
            fade_ramp := ((g.fade_ramp.set 0).ramp 1 g.fade_duration).tickN k } := by
  intro k hk1 hk2
  induction k, hk1 using Nat.le_induction with
  | base =>
    have hfin : ({ g with duration := g.elapsed_sample_count + g.fade_duration } : Grain).isFinished = false := by
      refine Grain.isFinished_false _ ?_ ?_
      · show g.elapsed_sample_count ≠ g.elapsed_sample_count + g.fade_duration
        omega
      · show g.elapsed_sample_count + g.fade_duration ≠ 0
        omega
    show ((({ g with duration := g.elapsed_sample_count + g.fade_duration } : Grain)).tick).1 = _
    rw [Grain.tick_first _ hfin he hw]
    simp [RampedValue.tickN, he]
  | succ m hm ih =>
    have hm2 : m ≤ g.fade_duration := by omega
    rw [Grain.tickN_succ, ih hm2]
    have hfin : (({ g with
        duration := g.elapsed_sample_count + g.fade_duration,
        elapsed_sample_count := m,
        delay_pos := g.delay_pos - (m : ℚ) * g.sample_increment,
        fade_ramp := ((g.fade_ramp.set 0).ramp 1 g.fade_duration).tickN m } : Grain)).isFinished = false := by
      refine Grain.isFinished_false _ ?_ ?_
      · show m ≠ g.elapsed_sample_count + g.fade_duration
        omega
      · show g.elapsed_sample_count + g.fade_duration ≠ 0
        omega
    have hwait : (({ g with
        duration := g.elapsed_sample_count + g.fade_duration,
        elapsed_sample_count := m,
        delay_pos := g.delay_pos - (m : ℚ) * g.sample_increment,
        fade_ramp := ((g.fade_ramp.set 0).ramp 1 g.fade_duration).tickN m } : Grain)).isWaiting = false :=
      Grain.isWaiting_false _ hw
    have h1 : ¬ (m = 0 ∧ g.scheduled_wait = 0) := by
      intro h; omega
    have h2 : m ≠ g.elapsed_sample_count + g.fade_duration - g.fade_duration := by omega
    rw [Grain.tick_mid _ hfin hwait h1 h2]
    simp only [Grain.mk.injEq, and_true, true_and]
    constructor
    · push_cast
      ring
    · rfl

/-- **C5**.  Grain stop semantics.  For a playing grain not yet in its
fade-out region (`elapsed + fade ≤ duration`, `elapsed < duration`,
`wait = 0`), `stop()` is followed by exactly `fade_duration` further ticks
with non-zero gain, after which the grain is finished; `stop()` inside the
fade-out region is a no-op; and `stop()` is idempotent. -/
theorem grain_stop_semantics :
    (∀ g : Grain, g.scheduled_wait = 0 →
        g.elapsed_sample_count < g.duration →
        g.elapsed_sample_count + g.fade_duration ≤ g.duration →
        (∀ k, k < g.fade_duration →
            (g.stop.tickN k).isFinished = false ∧ (((g.stop.tickN k).tick).2).2 ≠ 0) ∧
          (g.stop.tickN g.fade_duration).isFinished = true) ∧
    (∀ g : Grain, g.duration - g.fade_duration < g.elapsed_sample_count → g.stop = g) ∧
    (∀ g : Grain, g.stop.stop = g.stop) := by
  refine ⟨?_, Grain.stop_of_fading_out, Grain.stop_stop⟩
  intro g hw hlt hnf
  have hstop : g.stop = { g with duration := g.elapsed_sample_count + g.fade_duration } := by
    unfold Grain.stop
    rw [if_neg (by omega)]
  rw [hstop]
  constructor
  · intro k hk
    have hfle : k ≤ g.fade_duration := le_of_lt hk
    by_cases he0 : g.elapsed_sample_count = 0
    · rcases Nat.eq_zero_or_pos k with hk0 | hk1
      · subst hk0
        have hfin : ({ g with duration := g.elapsed_sample_count + g.fade_duration } : Grain).isFinished = false := by
          refine Grain.isFinished_false _ ?_ ?_
          · show g.elapsed_sample_count ≠ g.elapsed_sample_count + g.fade_duration
            omega
          · show g.elapsed_sample_count + g.fade_duration ≠ 0
            omega
        refine ⟨hfin, ?_⟩
        show (((({ g with duration := g.elapsed_sample_count + g.fade_duration } : Grain)).tick).2).2 ≠ 0
        rw [Grain.tick_first _ hfin he0 hw]
        have hcnt : ((g.fade_ramp.set 0).ramp 1 g.fade_duration).ramp_time_counter ≠ 0 := by
          simp [RampedValue.ramp]
        rw [RampedValue.tick_snd _ hcnt]
        show (((g.fade_ramp.set 0).ramp 1 g.fade_duration).tickN 1).value ≠ 0
        rw [show (1 : ℕ) = 0 + 1 from rfl,
          RampedValue.fadein_value g.fade_ramp g.fade_duration 0 (Nat.zero_le _)]
        push_cast
        positivity
      · have hmid := Grain.stop_run_zero g hw he0 k hk1 hfle
        rw [hmid]
        have hfin : (({ g with
            duration := g.elapsed_sample_count + g.fade_duration,
            elapsed_sample_count := k,
            delay_pos := g.delay_pos - (k : ℚ) * g.sample_increment,
            fade_ramp := ((g.fade_ramp.set 0).ramp 1 g.fade_duration).tickN k } : Grain)).isFinished = false := by
          refine Grain.isFinished_false _ ?_ ?_
          · show k ≠ g.elapsed_sample_count + g.fade_duration
            omega
          · show g.elapsed_sample_count + g.fade_duration ≠ 0
            omega
        refine ⟨hfin, ?_⟩
        have hwait := Grain.isWaiting_false ({ g with
            duration := g.elapsed_sample_count + g.fade_duration,
            elapsed_sample_count := k,
            delay_pos := g.delay_pos - (k : ℚ) * g.sample_increment,
            fade_ramp := ((g.fade_ramp.set 0).ramp 1 g.fade_duration).tickN k } : Grain) hw
        have h1 : ¬ (k = 0 ∧ g.scheduled_wait = 0) := by
          intro h; omega
        have h2 : k ≠ g.elapsed_sample_count + g.fade_duration - g.fade_duration := by omega
        rw [Grain.tick_mid _ hfin hwait h1 h2]
        have hcnt : (((g.fade_ramp.set 0).ramp 1 g.fade_duration).tickN k).ramp_time_counter ≠ 0 := by
          rw [RampedValue.tickN_ramp_counter _ _ _ _ (by omega)]
          omega
        show ((((g.fade_ramp.set 0).ramp 1 g.fade_duration).tickN k).tick).2 ≠ 0
        rw [RampedValue.tick_snd _ hcnt]
        show (((g.fade_ramp.set 0).ramp 1 g.fade_duration).tickN (k + 1)).value ≠ 0
        rw [RampedValue.fadein_value g.fade_ramp g.fade_duration k hfle]
        push_cast
        positivity
    · have he1 : 1 ≤ g.elapsed_sample_count := by omega
      rcases Nat.eq_zero_or_pos k with hk0 | hk1
      · subst hk0
        have hfin : ({ g with duration := g.elapsed_sample_count + g.fade_duration } : Grain).isFinished = false := by
          refine Grain.isFinished_false _ ?_ ?_
          · show g.elapsed_sample_count ≠ g.elapsed_sample_count + g.fade_duration
            omega
          · show g.elapsed_sample_count + g.fade_duration ≠ 0
            omega
        refine ⟨hfin, ?_⟩
        have hwait := Grain.isWaiting_false
          ({ g with duration := g.elapsed_sample_count + g.fade_duration } : Grain) hw
        have h1 : ¬ (({ g with duration := g.elapsed_sample_count + g.fade_duration } : Grain).elapsed_sample_count = 0 ∧
            ({ g with duration := g.elapsed_sample_count + g.fade_duration } : Grain).scheduled_wait = 0) := by
          intro h
          exact absurd h.1 (by show g.elapsed_sample_count ≠ 0; omega)
        have h2 : ({ g with duration := g.elapsed_sample_count + g.fade_duration } : Grain).elapsed_sample_count =
            ({ g with duration := g.elapsed_sample_count + g.fade_duration } : Grain).duration -
            ({ g with duration := g.elapsed_sample_count + g.fade_duration } : Grain).fade_duration := by
          show g.elapsed_sample_count = g.elapsed_sample_count + g.fade_duration - g.fade_duration
          omega
        show (((({ g with duration := g.elapsed_sample_count + g.fade_duration } : Grain)).tick).2).2 ≠ 0
        rw [Grain.tick_fadeout _ hfin hwait h1 h2]
        have hcnt : ((g.fade_ramp.set 1).ramp 0 g.fade_duration).ramp_time_counter ≠ 0 := by
          simp [RampedValue.ramp]
        rw [RampedValue.tick_snd _ hcnt]
        show (((g.fade_ramp.set 1).ramp 0 g.fade_duration).tickN 1).value ≠ 0
        rw [show (1 : ℕ) = 0 + 1 from rfl,
          RampedValue.fadeout_value g.fade_ramp g.fade_duration 0 (Nat.zero_le _)]
        have hnum : ((g.fade_duration - 0 : ℕ) : ℚ) ≠ 0 := by
          rw [Nat.sub_zero]
          exact_mod_cast Nat.pos_iff_ne_zero.mp (by omega)
        exact div_ne_zero hnum (by positivity)
      · have hmid := Grain.stop_run_pos g hw he1 k hk1 hfle
        rw [hmid]
        have hfin : (({ g with
            duration := g.elapsed_sample_count + g.fade_duration,
            elapsed_sample_count := g.elapsed_sample_count + k,
            delay_pos := g.delay_pos - (k : ℚ) * g.sample_increment,
            fade_ramp := ((g.fade_ramp.set 1).ramp 0 g.fade_duration).tickN k } : Grain)).isFinished = false := by
          refine Grain.isFinished_false _ ?_ ?_
          · show g.elapsed_sample_count + k ≠ g.elapsed_sample_count + g.fade_duration
            omega
          · show g.elapsed_sample_count + g.fade_duration ≠ 0
            omega
        refine ⟨hfin, ?_⟩
        have hwait := Grain.isWaiting_false ({ g with
            duration := g.elapsed_sample_count + g.fade_duration,
            elapsed_sample_count := g.elapsed_sample_count + k,
            delay_pos := g.delay_pos - (k : ℚ) * g.sample_increment,
            fade_ramp := ((g.fade_ramp.set 1).ramp 0 g.fade_duration).tickN k } : Grain) hw
        have h1 : ¬ (g.elapsed_sample_count + k = 0 ∧ g.scheduled_wait = 0) := by
          intro h; omega
        have h2 : g.elapsed_sample_count + k ≠
            g.elapsed_sample_count + g.fade_duration - g.fade_duration := by omega
        rw [Grain.tick_mid _ hfin hwait h1 h2]
        have hcnt : (((g.fade_ramp.set 1).ramp 0 g.fade_duration).tickN k).ramp_time_counter ≠ 0 := by
          rw [RampedValue.tickN_ramp_counter _ _ _ _ (by omega)]
          omega
        show ((((g.fade_ramp.set 1).ramp 0 g.fade_duration).tickN k).tick).2 ≠ 0
        rw [RampedValue.tick_snd _ hcnt]
        show (((g.fade_ramp.set 1).ramp 0 g.fade_duration).tickN (k + 1)).value ≠ 0
        rw [RampedValue.fadeout_value g.fade_ramp g.fade_duration k hfle]
        have hnum : ((g.fade_duration - k : ℕ) : ℚ) ≠ 0 := by
          exact_mod_cast Nat.pos_iff_ne_zero.mp (by omega)
        exact div_ne_zero hnum (by positivity)
  · rcases Nat.eq_zero_or_pos g.fade_duration with hf0 | hf1
    · simp only [hf0, Grain.tickN]
      simp [Grain.isFinished]
    · by_cases he0 : g.elapsed_sample_count = 0
      · rw [Grain.stop_run_zero g hw he0 g.fade_duration hf1 le_rfl]
        simp [Grain.isFinished, he0]
      · rw [Grain.stop_run_pos g hw (by omega) g.fade_duration hf1 le_rfl]
        simp [Grain.isFinished]

/-- Witness for C5 at concrete grains: a grain of duration 15, fade 3,
ticked 5 times then stopped, finishes after exactly 3 more ticks; a grain
already fading out (13 of 15 elapsed) is unchanged by `stop`; `stop` is
idempotent on a fresh reverse grain. -/
theorem grain_stop_semantics_witness :
    ((Grain.tickN (Grain.new 0 20 15 3 false 1) 5).stop.tickN
        (Grain.tickN (Grain.new 0 20 15 3 false 1) 5).fade_duration).isFinished = true ∧
    (Grain.tickN (Grain.new 0 20 15 3 false 1) 13).stop =
      Grain.tickN (Grain.new 0 20 15 3 false 1) 13 ∧
    (Grain.new 0 7 6 2 true 1).stop.stop = (Grain.new 0 7 6 2 true 1).stop :=
  ⟨(grain_stop_semantics.1 (Grain.tickN (Grain.new 0 20 15 3 false 1) 5)
      (by decide) (by decide) (by decide)).2,
   grain_stop_semantics.2.1 (Grain.tickN (Grain.new 0 20 15 3 false 1) 13) (by decide),
   grain_stop_semantics.2.2 (Grain.new 0 7 6 2 true 1)⟩

/-- A fade-free grain mid-run: position `p`, elapsed `k`, envelope ramp
settled at gain `1`. -/
def Grain.plainMid (o p : ℚ) (d k : ℕ) (inc : ℚ) : Grain :=
  Grain.mk 0 p d 0 k o inc (RampedValue.mk 1 1 0 0 1)

lemma Grain.plainMid_tick (o p : ℚ) (d k : ℕ) (inc : ℚ) (hk : 1 ≤ k) (hkd : k < d) :
    (Grain.plainMid o p d k inc).tick = (Grain.plainMid o (p - inc) d (k + 1) inc, (p, 1)) := by
  have hfin : (Grain.plainMid o p d k inc).isFinished = false :=
    Grain.isFinished_false _ (by show k ≠ d; omega) (by show d ≠ 0; omega)
  have hwait : (Grain.plainMid o p d k inc).isWaiting = false :=
    Grain.isWaiting_false _ rfl
  have h1 : ¬ ((Grain.plainMid o p d k inc).elapsed_sample_count = 0 ∧
      (Grain.plainMid o p d k inc).scheduled_wait = 0) := by
    intro h
    exact absurd h.1 (by show k ≠ 0; omega)
  have h2 : (Grain.plainMid o p d k inc).elapsed_sample_count ≠
      (Grain.plainMid o p d k inc).duration - (Grain.plainMid o p d k inc).fade_duration := by
    show k ≠ d - 0
    omega
  rw [Grain.tick_mid _ hfin hwait h1 h2]
  rfl

lemma Grain.plainMid_tickN (o : ℚ) (d : ℕ) (inc : ℚ) :
    ∀ n p k, 1 ≤ k → k + n ≤ d →
      (Grain.plainMid o p d k inc).tickN n = Grain.plainMid o (p - n * inc) d (k + n) inc := by
  intro n
  induction n with
  | zero => intro p k _ _; simp [Grain.tickN, Grain.plainMid]
  | succ m ih =>
    intro p k hk hkd
    rw [Grain.tickN_succ, ih p k hk (by omega),
      Grain.plainMid_tick o _ d (k + m) inc (by omega) (by omega)]
    show Grain.plainMid o (p - m * inc - inc) d (k + m + 1) inc =
      Grain.plainMid o (p - ((m + 1 : ℕ) : ℚ) * inc) d (k + (m + 1)) inc
    have harith : p - m * inc - inc = p - ((m + 1 : ℕ) : ℚ) * inc := by
      push_cast
      ring
    rw [harith]
    rfl

lemma Grain.plainMid_outputs (o : ℚ) (d : ℕ) (inc : ℚ) :
    ∀ n p k, 1 ≤ k → k + n ≤ d →
      (Grain.plainMid o p d k inc).outputs n =
        (List.range n).map (fun (i : ℕ) => (p - (i : ℚ) * inc, (1 : ℚ))) := by
  intro n
  induction n with
  | zero => intro p k _ _; simp [Grain.outputs]
  | succ m ih =>
    intro p k hk hkd
    show ((Grain.plainMid o p d k inc).tick).2 ::
        (((Grain.plainMid o p d k inc).tick).1.outputs m) = _
    rw [Grain.plainMid_tick o p d k inc hk (by omega)]
    show (p, (1 : ℚ)) :: (Grain.plainMid o (p - inc) d (k + 1) inc).outputs m = _
    rw [ih (p - inc) (k + 1) (by omega) (by omega)]
    rw [List.range_succ_eq_map, List.map_cons, List.map_map]
    congr 1
    · simp
    · refine List.map_congr_left ?_
      intro a _
      simp only [Function.comp_apply, Prod.mk.injEq]
      refine ⟨?_, trivial⟩
      push_cast
      ring

/-- `tickN` unrolled from the front. -/
lemma Grain.tickN_shift (g : Grain) : ∀ n, g.tickN (n + 1) = ((g.tick).1).tickN n := by
  intro n
  induction n with
  | zero => rfl
  | succ m ih =>
    rw [Grain.tickN_succ, ih, ← Grain.tickN_succ]

lemma Grain.fwd_first (o : ℚ) (d : ℕ) (hd : 1 ≤ d) :
    (Grain.new 0 o d 0 false 1).tick = (Grain.plainMid o (o - 2) d 1 1, (o - 1, 1)) := by
  have hnew : Grain.new 0 o d 0 false 1 =
      Grain.mk 0 (o - 1) d 0 0 o 1 (RampedValue.new 1) := by
    simp [Grain.new]
  rw [hnew]
  have hfin : (Grain.mk 0 (o - 1) d 0 0 o 1 (RampedValue.new 1)).isFinished = false :=
    Grain.isFinished_false _ (by show 0 ≠ d; omega) (by show d ≠ 0; omega)
  rw [Grain.tick_first _ hfin rfl rfl]
  have hramp : ((((RampedValue.new 1).set 0).ramp 1 0)).tick =
      (RampedValue.mk 1 1 0 0 1, (1 : ℚ)) := by
    norm_num [RampedValue.new, RampedValue.set, RampedValue.ramp, RampedValue.tick, lerp]
  simp only [hramp]
  show (Grain.mk 0 (o - 1 - 1) d 0 1 o 1 (RampedValue.mk 1 1 0 0 1), (o - 1, 1)) = _
  have harith : o - 1 - 1 = o - 2 := by ring
  rw [harith]
  rfl

lemma Grain.rev_first (o : ℚ) (d : ℕ) (hd : 1 ≤ d) :
    (Grain.new 0 o d 0 true 1).tick =
      (Grain.plainMid o (o - d + 1) d 1 (-1), (o - d, 1)) := by
  have hnew : Grain.new 0 o d 0 true 1 =
      Grain.mk 0 (o - d) d 0 0 o (-1) (RampedValue.new 1) := by
    simp [Grain.new]
  rw [hnew]
  have hfin : (Grain.mk 0 (o - d) d 0 0 o (-1) (RampedValue.new 1)).isFinished = false :=
    Grain.isFinished_false _ (by show 0 ≠ d; omega) (by show d ≠ 0; omega)
  rw [Grain.tick_first _ hfin rfl rfl]
  have hramp : ((((RampedValue.new 1).set 0).ramp 1 0)).tick =
      (RampedValue.mk 1 1 0 0 1, (1 : ℚ)) := by
    norm_num [RampedValue.new, RampedValue.set, RampedValue.ramp, RampedValue.tick, lerp]
  simp only [hramp]
  show (Grain.mk 0 (o - d - (-1)) d 0 1 o (-1) (RampedValue.mk 1 1 0 0 1), (o - d, 1)) = _
  have harith : o - d - (-1) = o - d + 1 := by ring
  rw [harith]
  rfl

lemma Grain.fwd_outputs (o : ℚ) (d : ℕ) (hd : 1 ≤ d) :
    (Grain.new 0 o d 0 false 1).outputs d =
      (List.range d).map (fun (i : ℕ) => (o - 1 - (i : ℚ), (1 : ℚ))) := by
  obtain ⟨n, rfl⟩ : ∃ n, d = n + 1 := ⟨d - 1, by omega⟩
  show ((Grain.new 0 o (n + 1) 0 false 1).tick).2 ::
      (((Grain.new 0 o (n + 1) 0 false 1).tick).1.outputs n) = _
  rw [Grain.fwd_first o (n + 1) hd]
  show (o - 1, (1 : ℚ)) :: (Grain.plainMid o (o - 2) (n + 1) 1 1).outputs n = _
  rw [Grain.plainMid_outputs o (n + 1) 1 n (o - 2) 1 le_rfl (by omega)]
  rw [List.range_succ_eq_map, List.map_cons, List.map_map]
  congr 1
  · simp
  · refine List.map_congr_left ?_
    intro a _
    simp only [Function.comp_apply, Prod.mk.injEq]
    refine ⟨?_, trivial⟩
    push_cast
    ring

lemma Grain.rev_outputs (o : ℚ) (d : ℕ) (hd : 1 ≤ d) :
    (Grain.new 0 o d 0 true 1).outputs d =
      (List.range d).map (fun (i : ℕ) => (o - (d : ℚ) + (i : ℚ), (1 : ℚ))) := by
  obtain ⟨n, rfl⟩ : ∃ n, d = n + 1 := ⟨d - 1, by omega⟩
  show ((Grain.new 0 o (n + 1) 0 true 1).tick).2 ::
      (((Grain.new 0 o (n + 1) 0 true 1).tick).1.outputs n) = _
  rw [Grain.rev_first o (n + 1) hd]
  show (o - ((n + 1 : ℕ) : ℚ), (1 : ℚ)) ::
      (Grain.plainMid o (o - ((n + 1 : ℕ) : ℚ) + 1) (n + 1) 1 (-1)).outputs n = _
  rw [Grain.plainMid_outputs o (n + 1) (-1) n (o - ((n + 1 : ℕ) : ℚ) + 1) 1 le_rfl (by omega)]
  rw [List.range_succ_eq_map, List.map_cons, List.map_map]
  congr 1
  · simp
  · refine List.map_congr_left ?_
    intro a _
    simp only [Function.comp_apply, Prod.mk.injEq]
    refine ⟨?_, trivial⟩
    push_cast
    ring

/-- **C10**.  Reverse/forward grain symmetry: with fade 0 and speed 1, the
`d` output pairs of the reverse grain are exactly the reversal of those of
the forward grain, and both grains are finished after `d` ticks. -/
theorem grain_reverse_forward_symmetry (o : ℚ) (d : ℕ) (hd : 1 ≤ d) :
    (Grain.new 0 o d 0 true 1).outputs d =
      ((Grain.new 0 o d 0 false 1).outputs d).reverse ∧
    ((Grain.new 0 o d 0 true 1).tickN d).isFinished = true ∧
    ((Grain.new 0 o d 0 false 1).tickN d).isFinished = true := by
  refine ⟨?_, ?_, ?_⟩
  · rw [Grain.fwd_outputs o d hd, Grain.rev_outputs o d hd]
    refine List.ext_getElem (by simp) ?_
    intro i hi hi'
    have hid : i < d := by simpa using hi
    rw [List.getElem_reverse]
    simp only [List.getElem_map, List.getElem_range, List.length_map, List.length_range,
      Prod.mk.injEq]
    refine ⟨?_, trivial⟩
    have h1 : ((d - 1 - i : ℕ) : ℚ) = ((d - 1 : ℕ) : ℚ) - (i : ℚ) :=
      Nat.cast_sub (by omega)
    have h2 : ((d - 1 : ℕ) : ℚ) = (d : ℚ) - 1 := by
      rw [Nat.cast_sub hd, Nat.cast_one]
    rw [h1, h2]
    ring
  · obtain ⟨n, rfl⟩ : ∃ n, d = n + 1 := ⟨d - 1, by omega⟩
    rw [Grain.tickN_shift]
    have h2 : ((Grain.new 0 o (n + 1) 0 true 1).tick).1 =
        Grain.plainMid o (o - ((n + 1 : ℕ) : ℚ) + 1) (n + 1) 1 (-1) := by
      rw [Grain.rev_first o (n + 1) hd]
    rw [h2, Grain.plainMid_tickN o (n + 1) (-1) n _ 1 le_rfl (by omega)]
    simp [Grain.isFinished, Grain.plainMid]
    omega
  · obtain ⟨n, rfl⟩ : ∃ n, d = n + 1 := ⟨d - 1, by omega⟩
    rw [Grain.tickN_shift]
    have h2 : ((Grain.new 0 o (n + 1) 0 false 1).tick).1 =
        Grain.plainMid o (o - 2) (n + 1) 1 1 := by
      rw [Grain.fwd_first o (n + 1) hd]
    rw [h2, Grain.plainMid_tickN o (n + 1) 1 n _ 1 le_rfl (by omega)]
    simp [Grain.isFinished, Grain.plainMid]
    omega

/-- Witness for C10 at `offset = 10`, `duration = 5` (the repo's own
`test_grain_reverse` instance). -/
theorem grain_reverse_forward_symmetry_witness :
    (Grain.new 0 10 5 0 true 1).outputs 5 =
      ((Grain.new 0 10 5 0 false 1).outputs 5).reverse :=
  (grain_reverse_forward_symmetry 10 5 (by decide)).1

/-- `DelayLine<T>` from src/delay_line.rs, at sample type `ℚ`. -/
structure DelayLine where
  buffer : List ℚ
  write_index : ℕ
deriving DecidableEq, Repr

namespace DelayLine

/-- `DelayLine::new`. -/
def new (size : ℕ) : DelayLine :=
  { buffer := List.replicate size 0, write_index := 0 }

/-- `DelayLine::len`. -/
def len (dl : DelayLine) : ℕ := dl.buffer.length

/-- `DelayLine::tick`. -/
def tick (dl : DelayLine) (v : ℚ) : DelayLine :=
  { buffer := dl.buffer.set dl.write_index v
    write_index := (dl.write_index + 1) % dl.buffer.length }

/-- `DelayLine::read` (total model; the source asserts `d < len`, see
`readOk`; under that assert the `usize` arithmetic cannot underflow). -/
def read (dl : DelayLine) (d : ℕ) : ℚ :=
  dl.buffer.getD ((dl.write_index + dl.buffer.length - d - 1) % dl.buffer.length) 0

/-- The assertion guarding `DelayLine::read`. -/
def readOk (dl : DelayLine) (d : ℕ) : Prop := d < dl.buffer.length

/-- `DelayLine::read_interpolated` (total model).  Rust's `as usize` on a
negative float saturates to 0, hence `Int.toNat`. -/
def read_interpolated (dl : DelayLine) (d : ℚ) : ℚ :=
  let i0 : ℕ := (Int.floor d).toNat
  let i1 : ℕ := (Int.ceil d).toNat
  let frac : ℚ := d - (i0 : ℚ)
  lerp (dl.read i0) (dl.read i1) frac

end DelayLine

/-- `MAX_GRAINS` from src/grain_player.rs. -/
def MAX_GRAINS : ℕ := 10

/-- The loop body of `GrainPlayer::read_grains`: traverse the grain slots,
ticking each non-finished grain and accumulating the interpolated,
gain-scaled reads of the active ones. -/
def readGrainsGo (dl : DelayLine) (rolling_offset : ℕ) :
    List Grain → ℚ → List Grain × ℚ
  | [], out => ([], out)
  | g :: gs, out =>
    if g.isFinished then
      let r := readGrainsGo dl rolling_offset gs out
      (g :: r.1, r.2)
    else if g.isWaiting then
      let r := readGrainsGo dl rolling_offset gs out
      (((g.tick).1) :: r.1, r.2)
    else
      let t := g.tick
      let delay := (t.2).1 + (rolling_offset : ℚ)
      let r := readGrainsGo dl rolling_offset gs
        (out + dl.read_interpolated delay * (t.2).2)
      (t.1 :: r.1, r.2)

/-- `GrainPlayer::read_grains` (total model; its assertions are
`readGrainsOk`). -/
def readGrains (grains : List Grain) (dl : DelayLine) (rolling_offset : ℕ) :
    List Grain × ℚ :=
  readGrainsGo dl rolling_offset grains 0

/-- The assertions on the `read_grains` path: for every active grain the
read position is inside the buffer (the explicit
`delay >= 0 && delay < len` assert, plus `ceil(delay) < len` inside
`read_interpolated`). -/
def readGrainsOk (grains : List Grain) (dl : DelayLine) (rolling_offset : ℕ) : Prop :=
  ∀ g ∈ grains, g.isFinished = false → g.isWaiting = false →
    0 ≤ ((g.tick).2).1 + (rolling_offset : ℚ) ∧
    ((g.tick).2).1 + (rolling_offset : ℚ) < (dl.buffer.length : ℚ) ∧
    Int.ceil (((g.tick).2).1 + (rolling_offset : ℚ)) < (dl.buffer.length : ℤ)

/-- `GrainPlayer<T>` from src/grain_player.rs, at sample type `ℚ`. -/
structure GrainPlayer where
  grains : List Grain
  rolling_buffer : DelayLine
  static_buffer : DelayLine
  rolling_offset : ℕ
  use_static_buffer : Bool
  loopable_region_length : ℕ
  fade_allowance : ℕ
  is_filling_static_buffer : Bool
deriving DecidableEq, Repr

namespace GrainPlayer

/-- `GrainPlayer::new_with_length` (`sample_rate` is accepted and unused,
as in the source). -/
def new_with_length (_sample_rate : ℚ) (loopable_region_length max_fade_time : ℕ) :
    GrainPlayer :=
  { grains := List.replicate MAX_GRAINS (Grain.new 0 0 0 0 false 0)
    rolling_buffer := DelayLine.new (loopable_region_length * 2 + max_fade_time)
    static_buffer := DelayLine.new (loopable_region_length + max_fade_time)
    rolling_offset := 0
    use_static_buffer := false
    loopable_region_length := loopable_region_length
    fade_allowance := max_fade_time
    is_filling_static_buffer := false }

end GrainPlayer

/-- The slot-replacement loop of `GrainPlayer::schedule_grain`: install the
grain into the first finished slot; if none, drop it silently. -/
def insertGrain : List Grain → Grain → List Grain
  | [], _ => []
  | h :: t, g => if h.isFinished then g :: t else h :: insertGrain t g

/-- `GrainPlayer::schedule_grain`. -/
def GrainPlayer.schedule_grain (p : GrainPlayer) (g : Grain) : GrainPlayer :=
  { p with grains := insertGrain p.grains g }

/-- `GrainPlayer::start_looping`. -/
def GrainPlayer.start_looping (p : GrainPlayer) : GrainPlayer :=
  { p with is_filling_static_buffer := true, use_static_buffer := false, rolling_offset := 0 }

/-- `GrainPlayer::stop_looping`. -/
def GrainPlayer.stop_looping (p : GrainPlayer) : GrainPlayer :=
  { p with is_filling_static_buffer := false, use_static_buffer := false, rolling_offset := 0 }

/-- `GrainPlayer::ticks_before_switch_to_static_buffer`. -/
def GrainPlayer.ticks_before_switch_to_static_buffer (p : GrainPlayer) : ℕ :=
  p.loopable_region_length + p.fade_allowance

/-- `GrainPlayer::tick_static_buffer_copy`. -/
def GrainPlayer.tick_static_buffer_copy (p : GrainPlayer) : GrainPlayer :=
  if p.use_static_buffer || !p.is_filling_static_buffer then p
  else
    let p1 := { p with static_buffer :=
      p.static_buffer.tick (p.rolling_buffer.read p.loopable_region_length) }
    if p1.ticks_before_switch_to_static_buffer ≤ p1.rolling_offset then
      { p1 with is_filling_static_buffer := false, use_static_buffer := true }
    else p1

/-- `GrainPlayer::tick`. -/
def GrainPlayer.tick (p : GrainPlayer) (input : ℚ) : GrainPlayer × ℚ :=
  let p1 := { p with rolling_buffer := p.rolling_buffer.tick input,
                     rolling_offset := p.rolling_offset + 1 }
  let p2 := p1.tick_static_buffer_copy
  if p2.use_static_buffer then
    let r := readGrains p2.grains p2.static_buffer p2.fade_allowance
    ({ p2 with grains := r.1 }, r.2)
  else
    let r := readGrains p2.grains p2.rolling_buffer p2.rolling_offset
    ({ p2 with grains := r.1 }, r.2)

/-- Player state after `n` ticks fed from the input stream `u`. -/
def GrainPlayer.tickN (p : GrainPlayer) (u : ℕ → ℚ) : ℕ → GrainPlayer
  | 0 => p
  | n + 1 => ((p.tickN u n).tick (u n)).1

lemma insertGrain_of_none_finished (l : List Grain) (g : Grain)
    (h : ∀ g' ∈ l, g'.isFinished = false) : insertGrain l g = l := by
  induction l with
  | nil => rfl
  | cons a t ih =>
    have ha : a.isFinished = false := h a (List.mem_cons_self a t)
    simp only [insertGrain, ha, Bool.false_eq_true, if_false]
    rw [ih (fun g' hg' => h g' (List.mem_cons_of_mem a hg'))]

lemma insertGrain_first_finished (pre : List Grain) (h : Grain) (post : List Grain)
    (g : Grain) (hpre : ∀ g' ∈ pre, g'.isFinished = false) (hh : h.isFinished = true) :
    insertGrain (pre ++ h :: post) g = pre ++ g :: post := by
  induction pre with
  | nil => simp [insertGrain, hh]
  | cons a t ih =>
    have ha : a.isFinished = false := hpre a (List.mem_cons_self a t)
    simp only [List.cons_append, insertGrain, ha, Bool.false_eq_true, if_false]
    show a :: insertGrain (t ++ h :: post) g = a :: (t ++ g :: post)
    rw [ih (fun g' hg' => hpre g' (List.mem_cons_of_mem a hg'))]

/-- **C8**.  Grain-pool saturation backpressure: scheduling a grain on a
pool with no finished slot leaves the player state completely unchanged
(the grain is silently dropped, no error is signalled — `schedule_grain`
is total); when a finished slot exists, the new grain replaces the first
such slot and nothing else changes. -/
theorem grain_pool_saturation :
    (∀ (p : GrainPlayer) (g : Grain),
        (∀ g' ∈ p.grains, g'.isFinished = false) → p.schedule_grain g = p) ∧
    (∀ (p : GrainPlayer) (g : Grain) (pre : List Grain) (h : Grain) (post : List Grain),
        p.grains = pre ++ h :: post →
        (∀ g' ∈ pre, g'.isFinished = false) →
        h.isFinished = true →
        p.schedule_grain g = { p with grains := pre ++ g :: post }) := by
  constructor
  · intro p g hsat
    show { p with grains := insertGrain p.grains g } = p
    rw [insertGrain_of_none_finished p.grains g hsat]
  · intro p g pre h post hgr hpre hh
    show { p with grains := insertGrain p.grains g } = _
    rw [hgr, insertGrain_first_finished pre h post g hpre hh]

/-- Witness for C8: a fresh pool (all ten slots finished) accepts a grain
into slot 0; a pool of ten active grains drops the new grain, leaving the
player unchanged. -/
theorem grain_pool_saturation_witness :
    ({ GrainPlayer.new_with_length 10 4 1 with
        grains := List.replicate MAX_GRAINS (Grain.new 0 5 5 0 false 1) } :
          GrainPlayer).schedule_grain (Grain.new 0 3 3 0 false 1) =
      { GrainPlayer.new_with_length 10 4 1 with
        grains := List.replicate MAX_GRAINS (Grain.new 0 5 5 0 false 1) } ∧
    (GrainPlayer.new_with_length 10 4 1).schedule_grain (Grain.new 0 3 3 0 false 1) =
      { GrainPlayer.new_with_length 10 4 1 with
        grains := Grain.new 0 3 3 0 false 1 ::
          List.replicate (MAX_GRAINS - 1) (Grain.new 0 0 0 0 false 0) } := by
  constructor
  · refine grain_pool_saturation.1 _ _ ?_
    intro g' hg'
    have := List.eq_of_mem_replicate hg'
    rw [this]
    rfl
  · refine grain_pool_saturation.2 _ _ [] (Grain.new 0 0 0 0 false 0)
      (List.replicate (MAX_GRAINS - 1) (Grain.new 0 0 0 0 false 0)) rfl ?_ rfl
    intro g' hg'
    simp at hg'

lemma GrainPlayer.tick_fst_skip (p : GrainPlayer) (x : ℚ)
    (h : p.use_static_buffer = true) :
    (p.tick x).1 = { p with
      rolling_buffer := p.rolling_buffer.tick x,
      rolling_offset := p.rolling_offset + 1,
      grains := (readGrains p.grains p.static_buffer p.fade_allowance).1 } := by
  obtain ⟨gs, rb, sb, ro, us, L, A, fl⟩ := p
  dsimp at h
  subst h
  simp [GrainPlayer.tick, GrainPlayer.tick_static_buffer_copy]

lemma GrainPlayer.tick_fst_fill (p : GrainPlayer) (x : ℚ)
    (hus : p.use_static_buffer = false)
    (hfl : p.is_filling_static_buffer = true)
    (hlt : p.rolling_offset + 1 < p.loopable_region_length + p.fade_allowance) :
    (p.tick x).1 = { p with
      rolling_buffer := p.rolling_buffer.tick x,
      rolling_offset := p.rolling_offset + 1,
      static_buffer := p.static_buffer.tick
        ((p.rolling_buffer.tick x).read p.loopable_region_length),
      grains := (readGrains p.grains (p.rolling_buffer.tick x) (p.rolling_offset + 1)).1 } := by
  obtain ⟨gs, rb, sb, ro, us, L, A, fl⟩ := p
  dsimp at hus hfl hlt
  subst hus; subst hfl
  simp [GrainPlayer.tick, GrainPlayer.tick_static_buffer_copy,
    GrainPlayer.ticks_before_switch_to_static_buffer, Nat.not_le.mpr hlt]

lemma GrainPlayer.tick_fst_flip (p : GrainPlayer) (x : ℚ)
    (hus : p.use_static_buffer = false)
    (hfl : p.is_filling_static_buffer = true)
    (hge : p.loopable_region_length + p.fade_allowance ≤ p.rolling_offset + 1) :
    (p.tick x).1 = { p with
      rolling_buffer := p.rolling_buffer.tick x,
      rolling_offset := p.rolling_offset + 1,
      static_buffer := p.static_buffer.tick
        ((p.rolling_buffer.tick x).read p.loopable_region_length),
      is_filling_static_buffer := false,
      use_static_buffer := true,
      grains := (readGrains p.grains
        (p.static_buffer.tick ((p.rolling_buffer.tick x).read p.loopable_region_length))
        p.fade_allowance).1 } := by
  obtain ⟨gs, rb, sb, ro, us, L, A, fl⟩ := p
  dsimp at hus hfl hge
  subst hus; subst hfl
  simp [GrainPlayer.tick, GrainPlayer.tick_static_buffer_copy,
    GrainPlayer.ticks_before_switch_to_static_buffer, hge]

/-- Field invariant after `GrainPlayer::start_looping`: the rolling offset
counts the ticks, region sizes are constant, and the phase flags flip
exactly at `loopable_region_length + fade_allowance` ticks. -/
lemma GrainPlayer.handoff_invariant (p : GrainPlayer) (u : ℕ → ℚ)
    (hcap : 1 ≤ p.loopable_region_length + p.fade_allowance) : ∀ n,
    (p.start_looping.tickN u n).rolling_offset = n ∧
    (p.start_looping.tickN u n).loopable_region_length = p.loopable_region_length ∧
    (p.start_looping.tickN u n).fade_allowance = p.fade_allowance ∧
    (p.start_looping.tickN u n).use_static_buffer =
      decide (p.loopable_region_length + p.fade_allowance ≤ n) ∧
    (p.start_looping.tickN u n).is_filling_static_buffer =
      decide (n < p.loopable_region_length + p.fade_allowance) := by
  intro n
  induction n with
  | zero =>
    refine ⟨rfl, rfl, rfl, ?_, ?_⟩
    · show false = decide (p.loopable_region_length + p.fade_allowance ≤ 0)
      simp
      omega
    · show true = decide (0 < p.loopable_region_length + p.fade_allowance)
      simp
      omega
  | succ n ih =>
    obtain ⟨hro, hL, hA, hus, hfill⟩ := ih
    rw [show p.start_looping.tickN u (n + 1) =
      ((p.start_looping.tickN u n).tick (u n)).1 from rfl]
    by_cases hstat : p.loopable_region_length + p.fade_allowance ≤ n
    · have h1 : (p.start_looping.tickN u n).use_static_buffer = true := by
        rw [hus]; simp [hstat]
      rw [GrainPlayer.tick_fst_skip _ _ h1]
      refine ⟨?_, hL, hA, ?_, ?_⟩
      · show (p.start_looping.tickN u n).rolling_offset + 1 = n + 1
        rw [hro]
      · show (p.start_looping.tickN u n).use_static_buffer = _
        rw [h1]
        simp
        omega
      · show (p.start_looping.tickN u n).is_filling_static_buffer = _
        rw [hfill]
        simp
        omega
    · have h1 : (p.start_looping.tickN u n).use_static_buffer = false := by
        rw [hus]; simp [hstat]
      have h2 : (p.start_looping.tickN u n).is_filling_static_buffer = true := by
        rw [hfill]; simp; omega
      by_cases hflip : p.loopable_region_length + p.fade_allowance ≤ n + 1
      · have h3 : (p.start_looping.tickN u n).loopable_region_length +
            (p.start_looping.tickN u n).fade_allowance ≤
            (p.start_looping.tickN u n).rolling_offset + 1 := by
          rw [hL, hA, hro]; omega
        rw [GrainPlayer.tick_fst_flip _ _ h1 h2 h3]
        refine ⟨?_, hL, hA, ?_, ?_⟩
        · show (p.start_looping.tickN u n).rolling_offset + 1 = n + 1
          rw [hro]
        · show true = decide (p.loopable_region_length + p.fade_allowance ≤ n + 1)
          simp [hflip]
        · show false = decide (n + 1 < p.loopable_region_length + p.fade_allowance)
          simp
          omega
      · have h3 : (p.start_looping.tickN u n).rolling_offset + 1 <
            (p.start_looping.tickN u n).loopable_region_length +
            (p.start_looping.tickN u n).fade_allowance := by
          rw [hL, hA, hro]; omega
        rw [GrainPlayer.tick_fst_fill _ _ h1 h2 h3]
        refine ⟨?_, hL, hA, ?_, ?_⟩
        · show (p.start_looping.tickN u n).rolling_offset + 1 = n + 1
          rw [hro]
        · show (p.start_looping.tickN u n).use_static_buffer = _
          rw [h1]
          simp
          omega
        · show (p.start_looping.tickN u n).is_filling_static_buffer = _
          rw [h2]
          simp
          omega

/-- **C2**.  Rolling-to-static handoff of `GrainPlayer`: after
`start_looping`, the player fills the static buffer one sample per tick
while grain reads still resolve against the rolling buffer
(`use_static_buffer = false`), the phase flips to the static buffer exactly
on the tick at which `loopable_region_length + fade_allowance` samples (the
static buffer's full capacity) have been copied, and from then on the
static buffer's contents never change under further ticks. -/
theorem grain_player_static_handoff (p : GrainPlayer) (u : ℕ → ℚ)
    (hcap : 1 ≤ p.loopable_region_length + p.fade_allowance) :
    (∀ n, (p.start_looping.tickN u n).use_static_buffer =
        decide (p.loopable_region_length + p.fade_allowance ≤ n)) ∧
    (∀ n, (p.start_looping.tickN u n).is_filling_static_buffer =
        decide (n < p.loopable_region_length + p.fade_allowance)) ∧
    (∀ n, n < p.loopable_region_length + p.fade_allowance →
        (p.start_looping.tickN u (n + 1)).static_buffer =
          ((p.start_looping.tickN u n).static_buffer).tick
            (((p.start_looping.tickN u n).rolling_buffer.tick (u n)).read
              p.loopable_region_length)) ∧
    (∀ n, p.loopable_region_length + p.fade_allowance ≤ n →
        (p.start_looping.tickN u n).static_buffer =
          (p.start_looping.tickN u
            (p.loopable_region_length + p.fade_allowance)).static_buffer) := by
  have hinv := GrainPlayer.handoff_invariant p u hcap
  refine ⟨fun n => (hinv n).2.2.2.1, fun n => (hinv n).2.2.2.2, ?_, ?_⟩
  · intro n hn
    obtain ⟨hro, hL, hA, hus, hfill⟩ := hinv n
    have h1 : (p.start_looping.tickN u n).use_static_buffer = false := by
      rw [hus]; simp; omega
    have h2 : (p.start_looping.tickN u n).is_filling_static_buffer = true := by
      rw [hfill]; simp; omega
    rw [show p.start_looping.tickN u (n + 1) =
      ((p.start_looping.tickN u n).tick (u n)).1 from rfl]
    by_cases hflip : p.loopable_region_length + p.fade_allowance ≤ n + 1
    · have h3 : (p.start_looping.tickN u n).loopable_region_length +
          (p.start_looping.tickN u n).fade_allowance ≤
          (p.start_looping.tickN u n).rolling_offset + 1 := by
        rw [hL, hA, hro]; omega
      rw [GrainPlayer.tick_fst_flip _ _ h1 h2 h3]
      show ((p.start_looping.tickN u n).static_buffer).tick
          (((p.start_looping.tickN u n).rolling_buffer.tick (u n)).read
            (p.start_looping.tickN u n).loopable_region_length) = _
      rw [hL]
    · have h3 : (p.start_looping.tickN u n).rolling_offset + 1 <
          (p.start_looping.tickN u n).loopable_region_length +
          (p.start_looping.tickN u n).fade_allowance := by
        rw [hL, hA, hro]; omega
      rw [GrainPlayer.tick_fst_fill _ _ h1 h2 h3]
      show ((p.start_looping.tickN u n).static_buffer).tick
          (((p.start_looping.tickN u n).rolling_buffer.tick (u n)).read
            (p.start_looping.tickN u n).loopable_region_length) = _
      rw [hL]
  · have hstep : ∀ m, (p.start_looping.tickN u
        ((p.loopable_region_length + p.fade_allowance) + m)).static_buffer =
        (p.start_looping.tickN u
          (p.loopable_region_length + p.fade_allowance)).static_buffer := by
      intro m
      induction m with
      | zero => rfl
      | succ m ih =>
        have hus := (hinv ((p.loopable_region_length + p.fade_allowance) + m)).2.2.2.1
        have h1 : (p.start_looping.tickN u
            ((p.loopable_region_length + p.fade_allowance) + m)).use_static_buffer = true := by
          rw [hus]; simp
        rw [show (p.loopable_region_length + p.fade_allowance) + (m + 1) =
          ((p.loopable_region_length + p.fade_allowance) + m) + 1 from rfl]
        rw [show p.start_looping.tickN u
            (((p.loopable_region_length + p.fade_allowance) + m) + 1) =
          ((p.start_looping.tickN u
            ((p.loopable_region_length + p.fade_allowance) + m)).tick
              (u ((p.loopable_region_length + p.fade_allowance) + m))).1 from rfl]
        rw [GrainPlayer.tick_fst_skip _ _ h1]
        exact ih
    intro n hn
    obtain ⟨m, rfl⟩ : ∃ m, n = (p.loopable_region_length + p.fade_allowance) + m :=
      ⟨n - (p.loopable_region_length + p.fade_allowance), by omega⟩
    exact hstep m

/-- Witness for C2 at a concrete player (`loopable = 2`, `fade allowance
= 1`): the flip happens exactly after 3 ticks. -/
theorem grain_player_static_handoff_witness :
    ((GrainPlayer.new_with_length 10 2 1).start_looping.tickN (fun _ => 0) 2).use_static_buffer
        = false ∧
    ((GrainPlayer.new_with_length 10 2 1).start_looping.tickN (fun _ => 0) 3).use_static_buffer
        = true :=
  ⟨by rw [(grain_player_static_handoff (GrainPlayer.new_with_length 10 2 1)
        (fun _ => 0) (by decide)).1 2]; decide,
   by rw [(grain_player_static_handoff (GrainPlayer.new_with_length 10 2 1)
        (fun _ => 0) (by decide)).1 3]; decide⟩

/-- `LoopEvent` from src/loop_scheduler.rs. -/
inductive LoopEvent where
  | StartGrain (duration : ℚ)
  | StartLegatoGrain (duration : ℚ) (offset_reduction : ℚ)
  | StopGrain
  | FadeOutDry
  | FadeInDry
  | NextLoop
deriving DecidableEq, Repr

/-- The event queue of src/scheduler.rs (`Scheduler`), instantiated at
`LoopEvent` as `LoopScheduler` uses it. -/
structure Scheduler where
  events : List (ℚ × LoopEvent)
deriving DecidableEq, Repr

namespace Scheduler

/-- `Scheduler::new`. -/
def new : Scheduler := ⟨[]⟩

/-- `Scheduler::schedule_event` (total model; the source asserts
`schedOk`). -/
def schedule_event (s : Scheduler) (time : ℚ) (e : LoopEvent) : Scheduler :=
  ⟨s.events ++ [(time, e)]⟩

/-- The monotonic-insertion assert of `schedule_event`. -/
def schedOk (s : Scheduler) (time : ℚ) : Prop :=
  ((s.events.getLast?).map Prod.fst).getD 0 ≤ time

/-- The pop loop of `Scheduler::tick`: the due prefix, in order, and the
remaining queue. -/
def popDue (now : ℚ) : List (ℚ × LoopEvent) → List LoopEvent × List (ℚ × LoopEvent)
  | [] => ([], [])
  | (t, e) :: rest =>
    if t ≤ now then
      let r := popDue now rest
      (e :: r.1, r.2)
    else ([], (t, e) :: rest)

/-- `Scheduler::tick`. -/
def tick (s : Scheduler) (now : ℚ) : Scheduler × List LoopEvent :=
  (⟨(popDue now s.events).2⟩, (popDue now s.events).1)

/-- `Scheduler::clear`. -/
def clear (_s : Scheduler) : Scheduler := ⟨[]⟩

end Scheduler

/-- `next_grid_in_beats` from src/loop_scheduler.rs. -/
def next_grid_in_beats (song_time grid_interval grid_offset : ℚ) : ℚ :=
  ((Int.ceil ((song_time + grid_offset) / grid_interval) : ℚ)) * grid_interval - grid_offset

/-- `LoopScheduler` from src/loop_scheduler.rs. -/
structure LoopScheduler where
  scheduler : Scheduler
  fade_in_time : ℚ
  grid_interval : ℚ
  current_song_time : ℚ
  time_looping_initiated : ℚ
  is_looping : Bool
deriving DecidableEq, Repr

namespace LoopScheduler

/-- `LoopScheduler::new`. -/
def new : LoopScheduler :=
  { scheduler := Scheduler.new, fade_in_time := 0, grid_interval := 1
    current_song_time := -1, time_looping_initiated := 0, is_looping := false }

/-- `LoopScheduler::reset`. -/
def reset (s : LoopScheduler) : LoopScheduler :=
  { s with scheduler := s.scheduler.clear, is_looping := false }

/-- `LoopScheduler::set_fade_lead_in`. -/
def set_fade_lead_in (s : LoopScheduler) (fade_in : ℚ) : LoopScheduler :=
  { s with fade_in_time := fade_in }

/-- `LoopScheduler::set_grid_interval`. -/
def set_grid_interval (s : LoopScheduler) (new_interval : ℚ) : LoopScheduler :=
  if new_interval = s.grid_interval ∨ s.is_looping = false then
    { s with grid_interval := new_interval }
  else
    let cleared := { s with scheduler := s.scheduler.clear }
    let next_old :=
      next_grid_in_beats s.current_song_time s.grid_interval s.fade_in_time
    let next_new :=
      next_grid_in_beats s.current_song_time new_interval s.fade_in_time
    let legato := LoopEvent.StartLegatoGrain (next_new - next_old)
      (new_interval - (next_new - next_old))
    let s1 :=
      if new_interval < s.grid_interval then
        { cleared with scheduler :=
            (cleared.scheduler.schedule_event next_new LoopEvent.StopGrain) }
      else if s.grid_interval < new_interval then
        (if next_old < next_new then
          { cleared with scheduler :=
              (cleared.scheduler.schedule_event next_old legato) }
        else cleared)
      else cleared
    { s1 with
      scheduler := (s1.scheduler.schedule_event next_new LoopEvent.NextLoop),
      grid_interval := new_interval }

/-- `LoopScheduler::start_looping` (total model; the source asserts
`s.is_looping = false`). -/
def start_looping (s : LoopScheduler) : LoopScheduler :=
  let next := next_grid_in_beats s.current_song_time s.grid_interval s.fade_in_time
  { s with is_looping := true,
           time_looping_initiated := s.current_song_time,
           scheduler := ((s.scheduler.schedule_event next LoopEvent.NextLoop).schedule_event next LoopEvent.FadeOutDry) }

/-- `LoopScheduler::stop_looping` (total model; the source asserts
`s.is_looping = true`). -/
def stop_looping (s : LoopScheduler) : LoopScheduler :=
  let next := next_grid_in_beats s.current_song_time s.grid_interval s.fade_in_time
  { s with is_looping := false,
           scheduler := (((s.scheduler.clear).schedule_event next LoopEvent.StopGrain).schedule_event next LoopEvent.FadeInDry) }

/-- The event-translation loop inside `LoopScheduler::tick`: `NextLoop` is
turned into a public `StartGrain` and rescheduled one grid interval later;
everything else is passed through. -/
def processEvents (s : LoopScheduler) : List LoopEvent → LoopScheduler × List LoopEvent
  | [] => (s, [])
  | e :: rest =>
    if e = LoopEvent.NextLoop then
      let s1 := { s with scheduler := (s.scheduler.schedule_event (s.current_song_time + s.grid_interval) LoopEvent.NextLoop) }
      let r := processEvents s1 rest
      (r.1, LoopEvent.StartGrain s.grid_interval :: r.2)
    else
      let r := processEvents s rest
      (r.1, e :: r.2)

/-- `LoopScheduler::tick` (total model; the source asserts `tickOk`). -/
def tick (s : LoopScheduler) (beat_time : ℚ) : LoopScheduler × List LoopEvent :=
  processEvents
    { s with current_song_time := beat_time, scheduler := (s.scheduler.tick beat_time).1 }
    (s.scheduler.tick beat_time).2

/-- The `Time must go forward!` assert of `LoopScheduler::tick`. -/
def tickOk (s : LoopScheduler) (beat_time : ℚ) : Prop :=
  s.current_song_time < beat_time

end LoopScheduler

/-- The translation `tick` applies to each due event before returning it. -/
def replNext (grid : ℚ) (e : LoopEvent) : LoopEvent :=
  if e = LoopEvent.NextLoop then LoopEvent.StartGrain grid else e

lemma LoopScheduler.processEvents_spec (s : LoopScheduler) :
    ∀ l : List LoopEvent,
      s.processEvents l =
        ({ s with scheduler := ⟨s.scheduler.events ++
            List.replicate (l.count LoopEvent.NextLoop)
              (s.current_song_time + s.grid_interval, LoopEvent.NextLoop)⟩ },
         l.map (replNext s.grid_interval)) := by
  intro l
  induction l generalizing s with
  | nil =>
    simp [LoopScheduler.processEvents]
  | cons e rest ih =>
    by_cases he : e = LoopEvent.NextLoop
    · subst he
      simp only [LoopScheduler.processEvents, if_pos rfl]
      rw [ih]
      simp [Scheduler.schedule_event, replNext, List.replicate_succ, List.count_cons,
        List.append_assoc]
    · simp only [LoopScheduler.processEvents, if_neg he]
      rw [ih]
      simp [replNext, he, List.count_cons]

/-- Iterated `LoopScheduler::tick` at the grid times `T, T+g, T+2g, …`. -/
def LoopScheduler.tickChainAux (s : LoopScheduler) (T g : ℚ) : ℕ → LoopScheduler
  | 0 => s
  | n + 1 => ((LoopScheduler.tickChainAux s T g n).tick (T + (n : ℚ) * g)).1

/-- **C3**.  LoopScheduler tick under strictly increasing song time: the
returned list never contains the internal `NextLoop`; each due event is
returned with `NextLoop` replaced, in place, by
`StartGrain{duration = grid_interval}`, and for every due `NextLoop` a new
`NextLoop` is scheduled at `song_time + grid_interval`; consequently, from
a state whose queue is a single `NextLoop` at `T`, ticking at
`T, T+g, T+2g, …` returns `[StartGrain g]` every time, indefinitely. -/
theorem loop_scheduler_tick_spec :
    (∀ (s : LoopScheduler) (t : ℚ), s.tickOk t →
        LoopEvent.NextLoop ∉ (s.tick t).2) ∧
    (∀ (s : LoopScheduler) (t : ℚ), s.tickOk t →
        (s.tick t).2 =
          ((Scheduler.popDue t s.scheduler.events).1).map (replNext s.grid_interval) ∧
        ((s.tick t).1).scheduler.events =
          (Scheduler.popDue t s.scheduler.events).2 ++
            List.replicate
              (((Scheduler.popDue t s.scheduler.events).1).count LoopEvent.NextLoop)
              (t + s.grid_interval, LoopEvent.NextLoop) ∧
        ((s.tick t).1).grid_interval = s.grid_interval ∧
        ((s.tick t).1).current_song_time = t) ∧
    (∀ (s : LoopScheduler) (T g : ℚ), 0 < g →
        s.scheduler.events = [(T, LoopEvent.NextLoop)] →
        s.grid_interval = g → s.current_song_time < T →
        ∀ n : ℕ,
          ((LoopScheduler.tickChainAux s T g n).tick (T + (n : ℚ) * g)).2 =
            [LoopEvent.StartGrain g]) := by
  have hmain : ∀ (s : LoopScheduler) (t : ℚ),
      (s.tick t).2 =
        ((Scheduler.popDue t s.scheduler.events).1).map (replNext s.grid_interval) ∧
      ((s.tick t).1).scheduler.events =
        (Scheduler.popDue t s.scheduler.events).2 ++
          List.replicate
            (((Scheduler.popDue t s.scheduler.events).1).count LoopEvent.NextLoop)
            (t + s.grid_interval, LoopEvent.NextLoop) ∧
      ((s.tick t).1).grid_interval = s.grid_interval ∧
      ((s.tick t).1).current_song_time = t := by
    intro s t
    unfold LoopScheduler.tick
    rw [LoopScheduler.processEvents_spec]
    exact ⟨rfl, rfl, rfl, rfl⟩
  refine ⟨?_, fun s t _ => hmain s t, ?_⟩
  · intro s t _ hmem
    rw [(hmain s t).1] at hmem
    obtain ⟨e, _, heq⟩ := List.mem_map.mp hmem
    by_cases he : e = LoopEvent.NextLoop <;> simp [replNext, he] at heq
  · intro s T g hg hq hgrid htime n
    have hchain : ∀ n : ℕ,
        (LoopScheduler.tickChainAux s T g n).scheduler.events =
          [(T + (n : ℚ) * g, LoopEvent.NextLoop)] ∧
        (LoopScheduler.tickChainAux s T g n).grid_interval = g ∧
        (LoopScheduler.tickChainAux s T g n).current_song_time < T + (n : ℚ) * g := by
      intro n
      induction n with
      | zero =>
        refine ⟨by simpa using hq, hgrid, by simpa using htime⟩
      | succ n ih =>
        obtain ⟨hq', hg', ht'⟩ := ih
        have hpop : Scheduler.popDue (T + (n : ℚ) * g)
            (LoopScheduler.tickChainAux s T g n).scheduler.events =
            ([LoopEvent.NextLoop], []) := by
          rw [hq']
          simp [Scheduler.popDue]
        have hstep := hmain (LoopScheduler.tickChainAux s T g n) (T + (n : ℚ) * g)
        refine ⟨?_, ?_, ?_⟩
        · show ((LoopScheduler.tickChainAux s T g n).tick
            (T + (n : ℚ) * g)).1.scheduler.events = _
          rw [hstep.2.1, hpop]
          simp only [List.count_cons, List.count_nil, beq_self_eq_true, if_true,
            List.nil_append]
          rw [hg']
          have harith : T + (n : ℚ) * g + g = T + ((n : ℚ) + 1) * g := by ring
          rw [harith]
          push_cast
          rfl
        · show ((LoopScheduler.tickChainAux s T g n).tick
            (T + (n : ℚ) * g)).1.grid_interval = g
          rw [hstep.2.2.1, hg']
        · show ((LoopScheduler.tickChainAux s T g n).tick
            (T + (n : ℚ) * g)).1.current_song_time < T + ((n + 1 : ℕ) : ℚ) * g
          rw [hstep.2.2.2]
          push_cast
          nlinarith
    obtain ⟨hq', hg', _⟩ := hchain n
    have hpop : Scheduler.popDue (T + (n : ℚ) * g)
        (LoopScheduler.tickChainAux s T g n).scheduler.events =
        ([LoopEvent.NextLoop], []) := by
      rw [hq']
      simp [Scheduler.popDue]
    rw [(hmain (LoopScheduler.tickChainAux s T g n) (T + (n : ℚ) * g)).1, hpop]
    simp [replNext, hg']

/-- Witness for C3: a fresh scheduler ticked at time 0 returns no
`NextLoop` and records the new song time; a queue holding one `NextLoop`
at beat 1 with grid 1 yields `[StartGrain 1]` on the third grid tick. -/
theorem loop_scheduler_tick_spec_witness :
    LoopEvent.NextLoop ∉ (LoopScheduler.new.tick 0).2 ∧
    ((LoopScheduler.new.tick 0).1).current_song_time = 0 ∧
    ((LoopScheduler.tickChainAux
        ({ LoopScheduler.new with scheduler := ⟨[(1, LoopEvent.NextLoop)]⟩ } : LoopScheduler)
        1 1 2).tick (1 + ((2 : ℕ) : ℚ) * 1)).2 = [LoopEvent.StartGrain 1] :=
  ⟨loop_scheduler_tick_spec.1 LoopScheduler.new 0
      (by show LoopScheduler.new.current_song_time < 0; norm_num [LoopScheduler.new]),
   (loop_scheduler_tick_spec.2.1 LoopScheduler.new 0
      (by show LoopScheduler.new.current_song_time < 0; norm_num [LoopScheduler.new])).2.2.2,
   loop_scheduler_tick_spec.2.2
      ({ LoopScheduler.new with scheduler := ⟨[(1, LoopEvent.NextLoop)]⟩ } : LoopScheduler)
      1 1 (by norm_num) rfl rfl (by norm_num [LoopScheduler.new]) 2⟩

/-- Recognizer for `StartLegatoGrain` events. -/
def isLegato : LoopEvent → Bool
  | LoopEvent.StartLegatoGrain _ _ => true
  | _ => false

/-- The state reached by `tick(3.5)` then `start_looping()` on a fresh
`LoopScheduler` (grid 1, fade lead-in 0). -/
def c4Start : LoopScheduler := ((LoopScheduler.new.tick (7/2)).1).start_looping

/-- `c4Start` after `set_grid_interval(4.0)`. -/
def c4After : LoopScheduler := c4Start.set_grid_interval 4

lemma c4Start_eq : c4Start =
    { scheduler := ⟨[((4 : ℚ), LoopEvent.NextLoop), ((4 : ℚ), LoopEvent.FadeOutDry)]⟩,
      fade_in_time := 0, grid_interval := 1, current_song_time := 7/2,
      time_looping_initiated := 7/2, is_looping := true } := by
  have hceil : (Int.ceil ((7 : ℚ)/2)) = 4 := by
    norm_num [Int.ceil_eq_iff]
  simp [c4Start, LoopScheduler.new, LoopScheduler.tick, LoopScheduler.processEvents,
    Scheduler.tick, Scheduler.popDue, Scheduler.new, LoopScheduler.start_looping,
    Scheduler.schedule_event, next_grid_in_beats, hceil]

lemma c4After_eq : c4After =
    { scheduler := ⟨[((4 : ℚ), LoopEvent.NextLoop)]⟩,
      fade_in_time := 0, grid_interval := 4, current_song_time := 7/2,
      time_looping_initiated := 7/2, is_looping := true } := by
  have hceil1 : (Int.ceil ((7 : ℚ)/2)) = 4 := by
    norm_num [Int.ceil_eq_iff]
  have hceil4 : (Int.ceil ((7 : ℚ)/8)) = 1 := by
    norm_num [Int.ceil_eq_iff]
  rw [c4After, c4Start_eq]
  simp only [LoopScheduler.set_grid_interval]
  rw [if_neg (by norm_num)]
  norm_num [Scheduler.clear, Scheduler.schedule_event, next_grid_in_beats, hceil1, hceil4]

/-- **C4 counterexample**.  Lengthening the grid 1 → 4 while looping, with
rolling history `current_song_time - time_looping_initiated = 0 < 4`
(shorter than the new grid length): contrary to the claim, the machine
schedules no `StartLegatoGrain` at all — the queue afterwards is exactly
`[(4, NextLoop)]` — because the source's condition for the bridging grain
is `next_new_grid > next_old_grid` (both are 4 here), not the length of the
rolling history. -/
theorem set_grid_lengthen_history_counterexample :
    c4Start.is_looping = true ∧
    c4Start.grid_interval = 1 ∧
    ((1 : ℚ) < 4) ∧
    c4Start.current_song_time - c4Start.time_looping_initiated = 0 ∧
    ((0 : ℚ) < 4) ∧
    c4After.grid_interval = 4 ∧
    c4After.scheduler.events = [((4 : ℚ), LoopEvent.NextLoop)] ∧
    c4After.scheduler.events.all (fun pe => !(isLegato pe.2)) = true := by
  rw [c4Start_eq, c4After_eq]
  refine ⟨rfl, rfl, by norm_num, by norm_num, by norm_num, rfl, rfl, rfl⟩

/-- **C4** (amended).  Grid lengthening while looping: whenever
`set_grid_interval` is called with a longer interval while looping and the
*new grid's next boundary lies strictly after the old grid's next boundary*
(this is the source's condition — not the length of the rolling history),
a `StartLegatoGrain` is scheduled at the old next boundary with
`duration = next_new − next_old` and
`offset_reduction = new_interval − duration`; and in every lengthening
case a `NextLoop` is scheduled at the new next boundary. -/
theorem set_grid_lengthen_amended (s : LoopScheduler) (new_interval : ℚ)
    (hloop : s.is_looping = true) (hlen : s.grid_interval < new_interval) :
    (s.set_grid_interval new_interval).scheduler.events =
      ((if next_grid_in_beats s.current_song_time s.grid_interval s.fade_in_time <
           next_grid_in_beats s.current_song_time new_interval s.fade_in_time then
         [(next_grid_in_beats s.current_song_time s.grid_interval s.fade_in_time,
           LoopEvent.StartLegatoGrain
             (next_grid_in_beats s.current_song_time new_interval s.fade_in_time -
              next_grid_in_beats s.current_song_time s.grid_interval s.fade_in_time)
             (new_interval -
               (next_grid_in_beats s.current_song_time new_interval s.fade_in_time -
                next_grid_in_beats s.current_song_time s.grid_interval s.fade_in_time)))]
       else []) ++
        [(next_grid_in_beats s.current_song_time new_interval s.fade_in_time,
          LoopEvent.NextLoop)]) ∧
    (s.set_grid_interval new_interval).grid_interval = new_interval := by
  have hne : ¬ (new_interval = s.grid_interval ∨ s.is_looping = false) := by
    push_neg
    refine ⟨ne_of_gt hlen, ?_⟩
    rw [hloop]
    simp
  simp only [LoopScheduler.set_grid_interval]
  rw [if_neg hne, if_neg (not_lt.mpr (le_of_lt hlen)), if_pos hlen]
  by_cases hb : next_grid_in_beats s.current_song_time s.grid_interval s.fade_in_time <
      next_grid_in_beats s.current_song_time new_interval s.fade_in_time
  · rw [if_pos hb, if_pos hb]
    exact ⟨rfl, rfl⟩
  · rw [if_neg hb, if_neg hb]
    exact ⟨rfl, rfl⟩

/-- Witness for the amended C4: lengthening 1 → 4 at song time 2.25 (the
repo's `test_loop_scheduler_lengthen_loop_early` instance) schedules the
bridging `StartLegatoGrain{duration 1, offset_reduction 3}` at beat 3 and
`NextLoop` at beat 4. -/
theorem set_grid_lengthen_amended_witness :
    (({ LoopScheduler.new with current_song_time := 9/4, is_looping := true } :
        LoopScheduler).set_grid_interval 4).scheduler.events =
      [((3 : ℚ), LoopEvent.StartLegatoGrain 1 3), ((4 : ℚ), LoopEvent.NextLoop)] ∧
    (({ LoopScheduler.new with current_song_time := 9/4, is_looping := true } :
        LoopScheduler).set_grid_interval 4).grid_interval = 4 := by
  have h := set_grid_lengthen_amended
    ({ LoopScheduler.new with current_song_time := 9/4, is_looping := true } : LoopScheduler)
    4 rfl (by show (1 : ℚ) < 4; norm_num)
  have hceil1 : (Int.ceil ((9 : ℚ)/4)) = 3 := by
    norm_num [Int.ceil_eq_iff]
  have hceil4 : (Int.ceil ((9 : ℚ)/16)) = 1 := by
    norm_num [Int.ceil_eq_iff]
  constructor
  · rw [h.1]
    norm_num [next_grid_in_beats, LoopScheduler.new, hceil1, hceil4]
  · exact h.2

/-- Modelled from the spec: the grain-pool collaborator the old
`GrainLooper` of src/grain_looper.rs drives (spec: "GrainPool (a.k.a.
GrainPlayer) — fixed-size pool of Grains … accumulates the summed output of
all active grains"): a fixed pool of `MAX_GRAINS` grain slots plus the
looper-supplied fade and reverse parameters. -/
structure GrainPlayerOld where
  grains : List Grain
  fade_duration : ℕ
  reverse : Bool
deriving DecidableEq, Repr

namespace GrainPlayerOld

/-- Modelled from the spec: a fresh pool of `MAX_GRAINS` finished slots. -/
def new : GrainPlayerOld :=
  { grains := List.replicate MAX_GRAINS (Grain.new 0 0 0 0 false 0)
    fade_duration := 0, reverse := false }

/-- Modelled from the spec: store the fade time in samples. -/
def set_fade_time (p : GrainPlayerOld) (fade : ℕ) : GrainPlayerOld :=
  { p with fade_duration := fade }

/-- Modelled from the spec: store the reverse flag. -/
def set_reverse (p : GrainPlayerOld) (r : Bool) : GrainPlayerOld :=
  { p with reverse := r }

/-- Modelled from the spec: `schedule_grain(wait, offset, duration)`
installs a grain carrying the pool's fade and reverse settings into the
first finished slot (speed is fixed at 1 in the old engine). -/
def schedule_grain (p : GrainPlayerOld) (wait offset duration : ℕ) : GrainPlayerOld :=
  { p with grains := (insertGrain p.grains (Grain.new wait (offset : ℚ) duration p.fade_duration p.reverse 1)) }

/-- Modelled from the spec: `stop_all()` stops every grain. -/
def stop_all_grains (p : GrainPlayerOld) : GrainPlayerOld :=
  { p with grains := p.grains.map Grain.stop }

/-- Modelled from the spec: `tick(buffer, reference_offset)` advances every
grain and accumulates the active grains' interpolated reads of `dl` at
`delay_position + reference_offset`, each scaled by the grain's gain
(the same per-slot loop as `GrainPlayer::read_grains`). -/
def tick (p : GrainPlayerOld) (dl : DelayLine) (offset : ℕ) : GrainPlayerOld × ℚ :=
  let r := readGrains p.grains dl offset
  ({ p with grains := r.1 }, r.2)

end GrainPlayerOld

/-- `std::usize::MAX`. -/
def usizeMax : ℕ := 2 ^ 64 - 1

/-- Rust `(x * rate) as usize` on an `f32`: truncation toward zero,
saturating at 0 for negative values (all uses here are nonnegative). -/
def samplesOf (seconds rate : ℚ) : ℕ := (Int.floor (seconds * rate)).toNat

/-- `GrainLooper` from src/grain_looper.rs (the old engine; its
`GrainPlayer` collaborator is the spec-modelled `GrainPlayerOld`).
`ticks_till_next_loop` and `rolling_offset` are modelled as unbounded `ℕ`;
the source's `usize` arithmetic on them never underflows on the paths
proved below (`ticks_till_next_loop` is reset before the decrement whenever
it is 0, and `loop_duration ≥ 1` there). -/
structure GrainLooper where
  grain_player : GrainPlayerOld
  is_looping : Bool
  sample_rate : ℚ
  ticks_till_next_loop : ℕ
  rolling_buffer : DelayLine
  static_buffer : DelayLine
  rolling_offset : ℕ
  use_static_buffer : Bool
  loopable_region_length : ℕ
  loop_offset : ℕ
  loop_duration : ℕ
  fade_duration : ℕ
  fade_allowance : ℕ
  dry_ramp : RampedValue
deriving DecidableEq, Repr

namespace GrainLooper

/-- `GrainLooper::new_with_length`. -/
def new_with_length (sample_rate : ℚ) (loopable_region_length max_fade_time : ℕ) :
    GrainLooper :=
  { grain_player := GrainPlayerOld.new
    is_looping := false
    sample_rate := sample_rate
    ticks_till_next_loop := usizeMax
    rolling_buffer := DelayLine.new (loopable_region_length * 2 + max_fade_time)
    static_buffer := DelayLine.new (loopable_region_length + max_fade_time)
    rolling_offset := 0
    use_static_buffer := false
    loopable_region_length := loopable_region_length
    loop_offset := 0
    loop_duration := 0
    fade_duration := 0
    fade_allowance := max_fade_time
    dry_ramp := RampedValue.new 1 }

/-- `GrainLooper::set_fade_time` (total model; the source asserts
`set_fade_timeOk`). -/
def set_fade_time (s : GrainLooper) (fade : ℚ) : GrainLooper :=
  let fade_samples := samplesOf fade s.sample_rate
  { s with grain_player := s.grain_player.set_fade_time fade_samples
           fade_duration := fade_samples }

/-- The `fade_samples <= fade_allowance` assert of `set_fade_time`. -/
def set_fade_timeOk (s : GrainLooper) (fade : ℚ) : Prop :=
  samplesOf fade s.sample_rate ≤ s.fade_allowance

/-- `GrainLooper::set_loop_offset`. -/
def set_loop_offset (s : GrainLooper) (offset_seconds : ℚ) : GrainLooper :=
  { s with loop_offset := samplesOf offset_seconds s.sample_rate }

/-- `GrainLooper::set_loop_duration` (total model; the source asserts
`set_loop_durationOk`). -/
def set_loop_duration (s : GrainLooper) (duration_seconds : ℚ) : GrainLooper :=
  { s with loop_duration := samplesOf duration_seconds s.sample_rate }

/-- The `loop_duration + fade_duration <= loopable_region_length` assert of
`set_loop_duration`. -/
def set_loop_durationOk (s : GrainLooper) (duration_seconds : ℚ) : Prop :=
  samplesOf duration_seconds s.sample_rate + s.fade_duration ≤
    s.loopable_region_length

/-- `GrainLooper::set_reverse`. -/
def set_reverse (s : GrainLooper) (reverse : Bool) : GrainLooper :=
  { s with grain_player := s.grain_player.set_reverse reverse }

/-- `GrainLooper::start_looping`. -/
def start_looping (s : GrainLooper) (loop_start_time_seconds : ℚ) : GrainLooper :=
  let wait := samplesOf loop_start_time_seconds s.sample_rate
  { s with is_looping := true
           grain_player := (s.grain_player.schedule_grain wait (s.loop_offset + s.fade_duration) (s.loop_duration + s.fade_duration))
           ticks_till_next_loop := wait + s.loop_duration
           rolling_offset := 0
           use_static_buffer := false
           dry_ramp := ((s.dry_ramp.set 1).ramp 0 s.fade_duration) }

/-- `GrainLooper::stop_looping`. -/
def stop_looping (s : GrainLooper) : GrainLooper :=
  { s with is_looping := false
           ticks_till_next_loop := usizeMax
           grain_player := s.grain_player.stop_all_grains
           dry_ramp := ((s.dry_ramp.set 0).ramp 1 s.fade_duration) }

/-- `GrainLooper::ticks_before_switch_to_static_buffer`. -/
def ticks_before_switch (s : GrainLooper) : ℕ :=
  s.loopable_region_length + s.fade_allowance

/-- `GrainLooper::tick_next_loop_trigger`.  (The source sets the counter to
`loop_duration` in the reset branch and then decrements unconditionally;
both branches are folded here with the trailing decrement applied, using
truncated `ℕ` subtraction exactly where the source's `usize` subtraction
sits.) -/
def tick_next_loop_trigger (s : GrainLooper) : GrainLooper :=
  if s.ticks_till_next_loop = 0 then
    { s with grain_player := (s.grain_player.schedule_grain 0 (s.loop_offset + s.fade_duration) (s.loop_duration + s.fade_duration))
             ticks_till_next_loop := s.loop_duration - 1 }
  else { s with ticks_till_next_loop := s.ticks_till_next_loop - 1 }

/-- `GrainLooper::tick_static_buffer_copy`. -/
def tick_static_buffer_copy (s : GrainLooper) : GrainLooper :=
  if s.use_static_buffer || !s.is_looping then s
  else
    let s1 := { s with static_buffer :=
      (s.static_buffer.tick (s.rolling_buffer.read s.loopable_region_length)) }
    if s1.ticks_before_switch ≤ s1.rolling_offset then
      { s1 with use_static_buffer := true }
    else s1

/-- `GrainLooper::tick` (total model; the asserts on its path are
`GrainLooper.tickOk`). -/
def tick (s : GrainLooper) (input : ℚ) : GrainLooper × ℚ :=
  let s1 := { s with rolling_buffer := s.rolling_buffer.tick input
                     rolling_offset := s.rolling_offset + 1 }
  let s2 := s1.tick_next_loop_trigger
  let r :=
    if s2.use_static_buffer then
      s2.grain_player.tick s2.static_buffer s2.fade_allowance
    else
      s2.grain_player.tick s2.rolling_buffer s2.rolling_offset
  let s3 := { s2 with grain_player := r.1 }
  let s4 := s3.tick_static_buffer_copy
  let dr := s4.dry_ramp.tick
  ({ s4 with dry_ramp := dr.1 }, r.2 + dr.2 * input)

/-- The assertions hit inside one `GrainLooper::tick`: the grain reads must
be inside the buffer being read (the `read_grains` asserts), and when the
static-buffer copy runs, its read of the rolling buffer at
`loopable_region_length` must be in bounds. -/
def tickOk (s : GrainLooper) (input : ℚ) : Prop :=
  let s1 := { s with rolling_buffer := s.rolling_buffer.tick input
                     rolling_offset := s.rolling_offset + 1 }
  let s2 := s1.tick_next_loop_trigger
  (if s2.use_static_buffer then
      readGrainsOk s2.grain_player.grains s2.static_buffer s2.fade_allowance
    else
      readGrainsOk s2.grain_player.grains s2.rolling_buffer s2.rolling_offset) ∧
  (s2.use_static_buffer = false → s2.is_looping = true →
      s2.rolling_buffer.readOk s2.loopable_region_length)

/-- Looper state after `n` ticks fed from the input stream `u`. -/
def tickN (s : GrainLooper) (u : ℕ → ℚ) : ℕ → GrainLooper
  | 0 => s
  | n + 1 => ((s.tickN u n).tick (u n)).1

end GrainLooper

/-- The grain-slot update performed by one `read_grains` pass: finished
slots are left alone, every other grain is ticked. -/
lemma readGrainsGo_fst (dl : DelayLine) (off : ℕ) (l : List Grain) :
    ∀ out : ℚ, (readGrainsGo dl off l out).1 =
      l.map (fun g => if g.isFinished then g else (g.tick).1) := by
  induction l with
  | nil => intro out; rfl
  | cons g gs ih =>
    intro out
    by_cases hf : g.isFinished
    · simp [readGrainsGo, hf, ih]
    · by_cases hw : g.isWaiting
      · simp [readGrainsGo, hf, hw, ih]
      · simp [readGrainsGo, hf, hw, ih]

/-- A pass over finished grains only reads nothing and changes nothing. -/
lemma readGrainsGo_finished (dl : DelayLine) (off : ℕ) (l : List Grain)
    (h : ∀ g ∈ l, g.isFinished = true) :
    ∀ out : ℚ, readGrainsGo dl off l out = (l, out) := by
  induction l with
  | nil => intro out; rfl
  | cons g gs ih =>
    intro out
    have hg : g.isFinished = true := h g (by simp)
    have ih2 := ih (fun x hx => h x (by simp [hx]))
    simp [readGrainsGo, hg, ih2]

/-- `read_grains` over one active grain in front of finished slots. -/
lemma readGrains_single (g : Grain) (rest : List Grain) (dl : DelayLine) (off : ℕ)
    (hf : g.isFinished = false) (hw : g.isWaiting = false)
    (hrest : ∀ x ∈ rest, x.isFinished = true) :
    readGrains (g :: rest) dl off =
      ((g.tick).1 :: rest,
        dl.read_interpolated (((g.tick).2).1 + (off : ℚ)) * ((g.tick).2).2) := by
  simp [readGrains, readGrainsGo, hf, hw, readGrainsGo_finished dl off rest hrest]

/-- Membership through the slot-replacement loop. -/
lemma mem_insertGrain (l : List Grain) (g x : Grain)
    (hx : x ∈ insertGrain l g) : x = g ∨ x ∈ l := by
  induction l with
  | nil => simp [insertGrain] at hx
  | cons h t ih =>
    by_cases hfin : h.isFinished
    · simp [insertGrain, hfin] at hx
      rcases hx with hx | hx
      · exact Or.inl hx
      · exact Or.inr (by simp [hx])
    · simp [insertGrain, hfin] at hx
      rcases hx with hx | hx
      · exact Or.inr (by simp [hx])
      · rcases ih hx with hx2 | hx2
        · exact Or.inl hx2
        · exact Or.inr (by simp [hx2])

/-- Writing a sample never changes a delay line's length. -/
lemma DelayLine.len_tick (dl : DelayLine) (v : ℚ) : (dl.tick v).len = dl.len := by
  simp [DelayLine.tick, DelayLine.len]

/-- Interpolated read at an exact integer delay is the plain read. -/
lemma DelayLine.read_interpolated_nat (dl : DelayLine) (d : ℕ) :
    dl.read_interpolated (d : ℚ) = dl.read d := by
  simp [DelayLine.read_interpolated, lerp, Int.floor_natCast, Int.ceil_natCast]

/-- An active grain's tick returns its current delay position unchanged. -/
lemma Grain.tick_active_delay (g : Grain) (hf : g.isFinished = false)
    (hw : g.isWaiting = false) : ((g.tick).2).1 = g.delay_pos := by
  simp [Grain.tick, hf, hw]

/-- The bookkeeping fields after an active grain's tick. -/
lemma Grain.tick_active_fields (g : Grain) (hf : g.isFinished = false)
    (hw : g.isWaiting = false) :
    ((g.tick).1).delay_pos = g.delay_pos - g.sample_increment ∧
    ((g.tick).1).elapsed_sample_count = g.elapsed_sample_count + 1 ∧
    ((g.tick).1).duration = g.duration ∧
    ((g.tick).1).sample_increment = g.sample_increment ∧
    ((g.tick).1).scheduled_wait = g.scheduled_wait := by
  simp [Grain.tick, hf, hw]

/-- A waiting grain's tick only decrements its wait counter. -/
lemma Grain.tick_waiting (g : Grain) (hf : g.isFinished = false)
    (hw : g.isWaiting = true) :
    (g.tick).1 = { g with scheduled_wait := g.scheduled_wait - 1 } := by
  simp [Grain.tick, hf, hw]

/-- Per-grain safety invariant of the old engine's pool, for loop offset
`o`, duration `d`, fade `f` (all in samples) and direction `rev`: every
slot is either finished or a loop grain of duration `d + f` whose delay
position is the integer determined by its direction and elapsed count. -/
def grainInv (o d f : ℕ) (rev : Bool) (g : Grain) : Prop :=
  g.isFinished = true ∨
    (g.duration = d + f ∧ g.elapsed_sample_count < d + f ∧
     g.sample_increment = (if rev then (-1 : ℚ) else 1) ∧
     g.delay_pos =
       (((if rev then ((o : ℤ) + f) - ((d : ℤ) + f) + g.elapsed_sample_count
          else ((o : ℤ) + f) - 1 - g.elapsed_sample_count) : ℤ) : ℚ))

/-- Whole-looper safety invariant: fixed parameters, fixed buffer lengths,
rolling offset still inside the loopable window while the rolling buffer is
authoritative, and `grainInv` on every slot. -/
def looperInv (L A f o d : ℕ) (rev : Bool) (s : GrainLooper) : Prop :=
  s.loopable_region_length = L ∧ s.fade_allowance = A ∧
  s.loop_offset = o ∧ s.loop_duration = d ∧ s.fade_duration = f ∧
  s.grain_player.fade_duration = f ∧ s.grain_player.reverse = rev ∧
  s.is_looping = true ∧
  s.rolling_buffer.len = 2 * L + A ∧ s.static_buffer.len = L + A ∧
  (s.use_static_buffer = false → s.rolling_offset < L + A) ∧
  (∀ g ∈ s.grain_player.grains, grainInv o d f rev g)

/-- A freshly scheduled loop grain satisfies the per-grain invariant. -/
lemma grainInv_new (o d f w : ℕ) (rev : Bool) (hd : 1 ≤ d) :
    grainInv o d f rev (Grain.new w ((o + f : ℕ) : ℚ) (d + f) f rev 1) := by
  right
  refine ⟨by simp [Grain.new], by simp [Grain.new]; omega, ?_, ?_⟩
  · cases rev <;> simp [Grain.new]
  · cases rev <;> simp [Grain.new] <;> push_cast <;> ring

/-- `grainInv` is preserved by the per-slot update of a read pass. -/
lemma grainInv_tick (o d f : ℕ) (rev : Bool) (g : Grain)
    (hg : grainInv o d f rev g) :
    grainInv o d f rev (if g.isFinished then g else (g.tick).1) := by
  by_cases hf : g.isFinished
  · simpa [hf] using hg
  · simp only [hf, if_neg (by simp [hf] : ¬ (g.isFinished = true))]
    rw [if_neg (by simp [hf])]
    rcases hg with hfin | ⟨hdur, he, hinc, hdelay⟩
    · exact absurd hfin (by simp [hf])
    · by_cases hw : g.isWaiting
      · rw [Grain.tick_waiting g (by simp [hf]) hw]
        exact Or.inr ⟨hdur, he, hinc, hdelay⟩
      · obtain ⟨h1, h2, h3, h4, h5⟩ :=
          Grain.tick_active_fields g (by simp [hf]) (by simp [hw])
        by_cases hend : g.elapsed_sample_count + 1 = d + f
        · left
          simp [Grain.isFinished, h2, h3, hdur, hend]
        · right
          refine ⟨by rw [h3, hdur], by rw [h2]; omega, by rw [h4, hinc], ?_⟩
          cases rev
          · simp only [Bool.false_eq_true, if_false] at hinc hdelay ⊢
            rw [h1, h2, hdelay, hinc]
            push_cast
            ring
          · simp only [if_pos] at hinc hdelay ⊢
            rw [h1, h2, hdelay, hinc]
            push_cast
            ring


/-- An unfinished invariant grain sits at an integer delay position inside
`[0, o + f - 1]` (the lower bound uses `d ≤ o`). -/
lemma grainInv_delay_bounds (o d f : ℕ) (rev : Bool) (g : Grain)
    (hg : grainInv o d f rev g) (hgf : g.isFinished = false) (hdo : d ≤ o) :
    ∃ z : ℤ, g.delay_pos = (z : ℚ) ∧ (0 : ℤ) ≤ z ∧ z ≤ (o : ℤ) + f - 1 := by
  rcases hg with h | ⟨hdur, he, hinc, hdelay⟩
  · rw [hgf] at h
    exact absurd h (by simp)
  · refine ⟨_, hdelay, ?_, ?_⟩ <;> cases rev <;> simp <;> omega

/-- The `read_grains` assertions hold on any pool of invariant grains read
far enough inside the buffer. -/
lemma readGrainsOk_of_inv (grains : List Grain) (dl : DelayLine) (off : ℕ)
    (o d f : ℕ) (rev : Bool)
    (hg : ∀ g ∈ grains, grainInv o d f rev g) (hdo : d ≤ o)
    (hhigh : (o : ℤ) + f - 1 + off < (dl.buffer.length : ℤ)) :
    readGrainsOk grains dl off := by
  intro g hgmem hgf hgw
  obtain ⟨z, hz, hz1, hz2⟩ := grainInv_delay_bounds o d f rev g (hg g hgmem) hgf hdo
  rw [Grain.tick_active_delay g hgf hgw, hz]
  have hcast : (z : ℚ) + ((off : ℕ) : ℚ) = ((z + (off : ℤ) : ℤ) : ℚ) := by
    push_cast
    ring
  rw [hcast]
  refine ⟨?_, ?_, ?_⟩
  · exact_mod_cast (by omega : (0 : ℤ) ≤ z + off)
  · exact_mod_cast (by omega : z + (off : ℤ) < (dl.buffer.length : ℤ))
  · rw [Int.ceil_intCast]
    omega


/-- A read pass sends a pool of invariant grains to a pool of invariant
grains. -/
lemma grainInv_readGrains (o d f : ℕ) (rev : Bool) (l : List Grain)
    (dl : DelayLine) (off : ℕ)
    (hg : ∀ g ∈ l, grainInv o d f rev g) :
    ∀ g ∈ (readGrains l dl off).1, grainInv o d f rev g := by
  rw [readGrains, readGrainsGo_fst]
  intro g hgm
  obtain ⟨g0, hg0, rfl⟩ := List.mem_map.mp hgm
  exact grainInv_tick o d f rev g0 (hg g0 hg0)

/-- One tick of the old looper preserves the safety invariant and passes
every internal assertion on its path (given the amended preconditions
`1 ≤ d`, `d ≤ o` and `o + f ≤ L`). -/
lemma looperInv_tick (L A f o d : ℕ) (rev : Bool) (s : GrainLooper) (x : ℚ)
    (hd : 1 ≤ d) (hdo : d ≤ o) (hofL : o + f ≤ L)
    (hs : looperInv L A f o d rev s) :
    looperInv L A f o d rev ((s.tick x).1) ∧ s.tickOk x := by
  obtain ⟨hL, hA, ho, hd0, hf0, hpf, hpr, hloop, hrlen, hslen, hro, hgr⟩ := hs
  obtain ⟨⟨gr, pf, pr⟩, il, sr, tt, rb, sb, ro, us, lrl, lo, ld, fd, fa, dr⟩ := s
  dsimp at hL hA ho hd0 hf0 hpf hpr hloop hrlen hslen hro hgr
  subst lrl fa lo ld fd pf pr il
  simp only [DelayLine.len] at hrlen hslen
  have hg2 : ∀ g ∈ (if tt = 0 then
        insertGrain gr (Grain.new 0 ((o + f : ℕ) : ℚ) (d + f) f rev 1) else gr),
      grainInv o d f rev g := by
    split
    · intro g hgm
      rcases mem_insertGrain _ _ _ hgm with h | h
      · exact h ▸ grainInv_new o d f 0 rev hd
      · exact hgr g h
    · exact hgr
  have hrblen : (rb.tick x).buffer.length = 2 * L + A := by
    have h2 := DelayLine.len_tick rb x
    simp only [DelayLine.len] at h2
    omega
  by_cases hus : us = true
  · subst hus
    have hok : readGrainsOk (if tt = 0 then
          insertGrain gr (Grain.new 0 ((o + f : ℕ) : ℚ) (d + f) f rev 1) else gr)
        sb A := by
      apply readGrainsOk_of_inv _ _ _ o d f rev hg2 hdo
      omega
    refine ⟨?_, ?_⟩
    · by_cases htt : tt = 0 <;>
        · simp [GrainLooper.tick, GrainLooper.tick_next_loop_trigger,
            GrainLooper.tick_static_buffer_copy, GrainLooper.ticks_before_switch,
            GrainPlayerOld.tick, GrainPlayerOld.schedule_grain, htt]
          unfold looperInv
          refine ⟨rfl, rfl, rfl, rfl, rfl, rfl, rfl, rfl, ?_, ?_, by simp, ?_⟩
          · simp [DelayLine.len, DelayLine.tick, hrlen]
          · simp [DelayLine.len, hslen]
          · apply grainInv_readGrains
            simpa [htt] using hg2
    · by_cases htt : tt = 0 <;>
        · simp [GrainLooper.tickOk, GrainLooper.tick_next_loop_trigger,
            GrainPlayerOld.schedule_grain, htt]
          simpa [htt] using hok
  · have husf : us = false := by simpa using hus
    subst husf
    have hlt : ro < L + A := hro rfl
    have hok : readGrainsOk (if tt = 0 then
          insertGrain gr (Grain.new 0 ((o + f : ℕ) : ℚ) (d + f) f rev 1) else gr)
        (rb.tick x) (ro + 1) := by
      apply readGrainsOk_of_inv _ _ _ o d f rev hg2 hdo
      omega
    refine ⟨?_, ?_⟩
    · by_cases htt : tt = 0 <;> by_cases hflip : L + A ≤ ro + 1
      · simp [GrainLooper.tick, GrainLooper.tick_next_loop_trigger,
          GrainLooper.tick_static_buffer_copy, GrainLooper.ticks_before_switch,
          GrainPlayerOld.tick, GrainPlayerOld.schedule_grain, htt, hflip]
        unfold looperInv
        refine ⟨rfl, rfl, rfl, rfl, rfl, rfl, rfl, rfl, ?_, ?_, by simp, ?_⟩
        · simp [DelayLine.len, DelayLine.tick, hrlen]
        · simp [DelayLine.len, DelayLine.tick, hslen]
        · apply grainInv_readGrains
          simpa [htt] using hg2
      · simp [GrainLooper.tick, GrainLooper.tick_next_loop_trigger,
          GrainLooper.tick_static_buffer_copy, GrainLooper.ticks_before_switch,
          GrainPlayerOld.tick, GrainPlayerOld.schedule_grain, htt, hflip]
        unfold looperInv
        refine ⟨rfl, rfl, rfl, rfl, rfl, rfl, rfl, rfl, ?_, ?_, ?_, ?_⟩
        · simp [DelayLine.len, DelayLine.tick, hrlen]
        · simp [DelayLine.len, DelayLine.tick, hslen]
        · intro h
          show ro + 1 < L + A
          omega
        · apply grainInv_readGrains
          simpa [htt] using hg2
      · simp [GrainLooper.tick, GrainLooper.tick_next_loop_trigger,
          GrainLooper.tick_static_buffer_copy, GrainLooper.ticks_before_switch,
          GrainPlayerOld.tick, GrainPlayerOld.schedule_grain, htt, hflip]
        unfold looperInv
        refine ⟨rfl, rfl, rfl, rfl, rfl, rfl, rfl, rfl, ?_, ?_, by simp, ?_⟩
        · simp [DelayLine.len, DelayLine.tick, hrlen]
        · simp [DelayLine.len, DelayLine.tick, hslen]
        · apply grainInv_readGrains
          simpa [htt] using hg2
      · simp [GrainLooper.tick, GrainLooper.tick_next_loop_trigger,
          GrainLooper.tick_static_buffer_copy, GrainLooper.ticks_before_switch,
          GrainPlayerOld.tick, GrainPlayerOld.schedule_grain, htt, hflip]
        unfold looperInv
        refine ⟨rfl, rfl, rfl, rfl, rfl, rfl, rfl, rfl, ?_, ?_, ?_, ?_⟩
        · simp [DelayLine.len, DelayLine.tick, hrlen]
        · simp [DelayLine.len, DelayLine.tick, hslen]
        · intro h
          show ro + 1 < L + A
          omega
        · apply grainInv_readGrains
          simpa [htt] using hg2
    · by_cases htt : tt = 0 <;>
        · simp [GrainLooper.tickOk, GrainLooper.tick_next_loop_trigger,
            GrainPlayerOld.schedule_grain, DelayLine.readOk, htt]
          refine ⟨by simpa [htt] using hok, ?_⟩
          omega

/-- At sample rate 10, a parameter of `m/10` seconds is exactly `m`
samples. -/
lemma samplesOf_tenth (m : ℕ) : samplesOf ((m : ℚ) / 10) 10 = m := by
  have h : ((m : ℚ) / 10) * 10 = (m : ℚ) := by
    field_simp
  simp [samplesOf, h]

/-- The old looper configured through its public setters: fade `f/10` s,
offset `o/10` s, duration `d/10` s, direction `rev`, then
`start_looping(W/10)`, all at sample rate 10 (so `f`, `o`, `d`, `W`
samples). -/
def c6Looper (L A f o d W : ℕ) (rev : Bool) : GrainLooper :=
  (((((GrainLooper.new_with_length 10 L A).set_fade_time ((f : ℚ) / 10)).set_loop_offset
      ((o : ℚ) / 10)).set_loop_duration ((d : ℚ) / 10)).set_reverse rev).start_looping
    ((W : ℚ) / 10)

lemma c6Looper_eq (L A f o d W : ℕ) (rev : Bool) :
    c6Looper L A f o d W rev =
      ⟨⟨insertGrain (List.replicate MAX_GRAINS (Grain.new 0 0 0 0 false 0))
          (Grain.new W ((o + f : ℕ) : ℚ) (d + f) f rev 1), f, rev⟩,
        true, 10, W + d, DelayLine.new (L * 2 + A), DelayLine.new (L + A), 0, false,
        L, o, d, f, A, (((RampedValue.new 1).set 1).ramp 0 f)⟩ := by
  simp [c6Looper, GrainLooper.new_with_length, GrainLooper.set_fade_time,
    GrainLooper.set_loop_offset, GrainLooper.set_loop_duration,
    GrainLooper.set_reverse, GrainLooper.start_looping, GrainPlayerOld.new,
    GrainPlayerOld.set_fade_time, GrainPlayerOld.set_reverse,
    GrainPlayerOld.schedule_grain, samplesOf_tenth]

/-- The safety invariant holds right after `start_looping`. -/
lemma looperInv_init (L A f o d W : ℕ) (rev : Bool) (hd : 1 ≤ d) (hL1 : 1 ≤ L) :
    looperInv L A f o d rev (c6Looper L A f o d W rev) := by
  rw [c6Looper_eq]
  unfold looperInv
  refine ⟨rfl, rfl, rfl, rfl, rfl, rfl, rfl, rfl, ?_, ?_, ?_, ?_⟩
  · simp [DelayLine.len, DelayLine.new]
    ring
  · simp [DelayLine.len, DelayLine.new]
  · intro _
    show (0 : ℕ) < L + A
    omega
  · intro g hgm
    rcases mem_insertGrain _ _ _ hgm with h | h
    · exact h ▸ grainInv_new o d f W rev hd
    · left
      have hg0 : g = Grain.new 0 0 0 0 false 0 := by
        simpa using List.eq_of_mem_replicate h
      rw [hg0]
      rfl

/-- **C6** (amended).  With the documented preconditions (`fade ≤
allowance`, `duration + fade ≤ loopable region`) strengthened by `1 ≤
duration`, `duration ≤ offset` and `offset + fade ≤ loopable region`, the
old engine's per-sample path is assertion-free: every setter assert holds
and every tick of the configured looper — forward or reverse, with or
without fade, for every input stream and start time — satisfies every
internal assertion (the grain delay-position bounds checks and the
static-copy read bound).  Without the strengthening the claim is false,
see the counterexample. -/
theorem grain_looper_tick_safety_amended (L A f o d W : ℕ) (rev : Bool) (u : ℕ → ℚ)
    (hd : 1 ≤ d) (hfA : f ≤ A) (hdfL : d + f ≤ L) (hdo : d ≤ o) (hofL : o + f ≤ L) :
    (GrainLooper.new_with_length 10 L A).set_fade_timeOk ((f : ℚ) / 10) ∧
    (((GrainLooper.new_with_length 10 L A).set_fade_time
        ((f : ℚ) / 10)).set_loop_offset ((o : ℚ) / 10)).set_loop_durationOk
      ((d : ℚ) / 10) ∧
    ∀ n : ℕ, ((c6Looper L A f o d W rev).tickN u n).tickOk (u n) := by
  have hL1 : 1 ≤ L := by omega
  have hinv : ∀ n : ℕ, looperInv L A f o d rev ((c6Looper L A f o d W rev).tickN u n) := by
    intro n
    induction n with
    | zero => exact looperInv_init L A f o d W rev hd hL1
    | succ n ih =>
      exact (looperInv_tick L A f o d rev _ (u n) hd hdo hofL ih).1
  refine ⟨?_, ?_, ?_⟩
  · show samplesOf ((f : ℚ) / 10) 10 ≤ A
    rw [samplesOf_tenth]
    exact hfA
  · show samplesOf ((d : ℚ) / 10) 10 + samplesOf ((f : ℚ) / 10) 10 ≤ L
    rw [samplesOf_tenth, samplesOf_tenth]
    omega
  · intro n
    exact (looperInv_tick L A f o d rev _ (u n) hd hdo hofL (hinv n)).2

/-- Witness for the amended C6: the configuration of the repo's own
`test_grain_looper_immediate_reverse_with_fade` (region 50, allowance 4,
fade 2, offset 5, duration 5, reverse), with the strengthened
preconditions holding, passes the first tick's assertions. -/
theorem grain_looper_tick_safety_amended_witness :
    ((c6Looper 50 4 2 5 5 0 true).tickN (fun _ => 0) 0).tickOk ((fun _ => 0) 0) :=
  (grain_looper_tick_safety_amended 50 4 2 5 5 0 true (fun _ => 0)
    (by norm_num) (by norm_num) (by norm_num) (by norm_num) (by norm_num)).2.2 0

/-- **C6 counterexample**.  An immediate reverse loop started with offset 0
and duration 0.5 s respects every documented precondition (fade 0 ≤
allowance 4, duration 5 + fade 0 ≤ region 50, monotonic time), yet the very
first `tick` violates the grain delay-position assertion: the reverse grain
starts at delay position `offset − duration = −5`, so `read_grains` is
asked for delay `−5 + 1 = −4 < 0`. -/
theorem grain_looper_reverse_assert_counterexample :
    (GrainLooper.new_with_length 10 50 4).set_fade_timeOk ((0 : ℚ) / 10) ∧
    (((GrainLooper.new_with_length 10 50 4).set_fade_time
        ((0 : ℚ) / 10)).set_loop_offset ((0 : ℚ) / 10)).set_loop_durationOk
      ((5 : ℚ) / 10) ∧
    ¬ (c6Looper 50 4 0 0 5 0 true).tickOk 0 := by
  refine ⟨?_, ?_, ?_⟩
  · show samplesOf ((0 : ℚ) / 10) 10 ≤ 4
    rw [show ((0 : ℚ) / 10) = (((0 : ℕ) : ℚ) / 10) by norm_num, samplesOf_tenth]
    omega
  · show samplesOf ((5 : ℚ) / 10) 10 + samplesOf ((0 : ℚ) / 10) 10 ≤ 50
    rw [show ((5 : ℚ) / 10) = (((5 : ℕ) : ℚ) / 10) by norm_num,
      show ((0 : ℚ) / 10) = (((0 : ℕ) : ℚ) / 10) by norm_num,
      samplesOf_tenth, samplesOf_tenth]
    omega
  · intro hok
    rw [c6Looper_eq] at hok
    simp only [GrainLooper.tickOk, GrainLooper.tick_next_loop_trigger] at hok
    norm_num at hok
    obtain ⟨h1, -⟩ := hok
    have hmem := h1 (Grain.new 0 ((0 + 0 : ℕ) : ℚ) (5 + 0) 0 true 1)
    norm_num [insertGrain, List.replicate, Grain.new, Grain.isFinished,
      Grain.isWaiting, Grain.tick] at hmem

/-- `samplesOf` at 0 seconds. -/
lemma samplesOf_zero : samplesOf 0 10 = 0 := by
  simp [samplesOf]

/-- `samplesOf` at half a second, sample rate 10. -/
lemma samplesOf_half : samplesOf ((1 : ℚ) / 2) 10 = 5 := by
  unfold samplesOf
  rw [show ((1 : ℚ) / 2 * 10) = ((5 : ℕ) : ℚ) by norm_num]
  simp

/-- The C1 scenario's priming input stream: the samples 10,11,12,13,14. -/
def primeIn : ℕ → ℚ := fun i => 10 + i

/-- The five primed samples. -/
def primeList : List ℚ := [10, 11, 12, 13, 14]

/-- A virgin (finished) grain slot. -/
def initGrain : Grain := Grain.new 0 0 0 0 false 0

/-- The C1 loop grain (offset 5, duration 5, fade 0, forward) after `j` of
its own ticks. -/
def loopGrain (j : ℕ) : Grain :=
  ⟨0, 4 - (j : ℚ), 5, 0, j, 5, 1,
    if j = 0 then ⟨1, 1, 1, 0, 0⟩ else ⟨1, 1, 0, 0, 1⟩⟩

/-- The C1 engine after priming with `[10..14]` and starting a 5-sample
loop at offset 5 with no fade (the repo's `test_grain_looper_loop`). -/
def c1Start : GrainLooper :=
  (((((GrainLooper.new_with_length 10 20 0).tickN primeIn 5).set_fade_time
      0).set_loop_offset ((1 : ℚ) / 2)).set_loop_duration
      ((1 : ℚ) / 2)).start_looping 0

/-- The rolling buffer after the 5 primed samples and `n` looped inputs
from the stream `u` (valid shape for `n ≤ 35`). -/
def c1RB (u : ℕ → ℚ) (n : ℕ) : DelayLine :=
  ⟨(primeList ++ (List.range n).map u) ++ List.replicate (35 - n) 0, 5 + n⟩

/-- The value the static-buffer copy writes on looped tick `n + 1`: zeros
while the loopable region still reaches past the primes, then the primes. -/
def sfill (i : ℕ) : ℚ := if i ≤ 14 then 0 else (i : ℚ) - 5

/-- The static buffer after `n` copy ticks of the C1 scenario. -/
def c1SB (n : ℕ) : DelayLine :=
  ⟨(List.range n).map sfill ++ List.replicate (20 - n) 0, n % 20⟩

/-- The C1 engine after `n ≥ 1` looped ticks, in closed form. -/
def c1State (u : ℕ → ℚ) (n : ℕ) : GrainLooper :=
  ⟨⟨loopGrain (((n - 1) % 5) + 1) :: List.replicate 9 initGrain, 0, false⟩,
    true, 10, 4 - ((n - 1) % 5), c1RB u n, c1SB n, n, decide (20 ≤ n),
    20, 5, 5, 0, 0, ⟨0, 0, 1, 0, 1⟩⟩

/-- `getD` of a mapped range at an in-range index. -/
lemma getD_map_range (f : ℕ → ℚ) (m i : ℕ) (hi : i < m) :
    ((List.range m).map f).getD i 0 = f i := by
  have hlen : i < ((List.range m).map f).length := by simpa
  rw [List.getD_eq_getElem _ _ hlen]
  simp

/-- `getD` of a constant-zero list is zero. -/
lemma getD_replicate_zero (m i : ℕ) : (List.replicate m (0 : ℚ)).getD i 0 = 0 := by
  induction m generalizing i with
  | zero => simp
  | succ m ih =>
    cases i with
    | zero => simp [List.replicate_succ]
    | succ i => simpa [List.replicate_succ] using ih i

/-- Writing at the seam of a zero-padded list. -/
lemma set_append_replicate (l : List ℚ) (m : ℕ) (v : ℚ) (hm : 1 ≤ m) :
    (l ++ List.replicate m 0).set l.length v = l ++ v :: List.replicate (m - 1) 0 := by
  induction l with
  | nil =>
    cases m with
    | zero => omega
    | succ k => simp [List.replicate_succ]
  | cons a t ih => simp [List.set, ih]

/-- Reading the C1 rolling buffer inside its written prefix. -/
lemma c1RB_read (u : ℕ → ℚ) (n d : ℕ) (hn : n ≤ 35) (hd : d ≤ 4 + n) :
    (c1RB u n).read d = (primeList ++ (List.range n).map u).getD (4 + n - d) 0 := by
  unfold c1RB DelayLine.read
  have hlen : ((primeList ++ (List.range n).map u) ++ List.replicate (35 - n) 0).length = 40 := by
    simp [primeList]
    omega
  rw [hlen]
  have hidx : (5 + n + 40 - d - 1) % 40 = 4 + n - d := by omega
  rw [hidx]
  have hin : 4 + n - d < (primeList ++ (List.range n).map u).length := by
    simp [primeList]
    omega
  exact List.getD_append _ _ _ _ hin

/-- Reading the C1 rolling buffer beyond its written prefix gives zero. -/
lemma c1RB_read_zero (u : ℕ → ℚ) (n d : ℕ) (hn : n ≤ 35) (h1 : 5 + n ≤ d)
    (h2 : d < 40) : (c1RB u n).read d = 0 := by
  unfold c1RB DelayLine.read
  have hlen : ((primeList ++ (List.range n).map u) ++ List.replicate (35 - n) 0).length = 40 := by
    simp [primeList]
    omega
  rw [hlen]
  have hidx : (5 + n + 40 - d - 1) % 40 = 44 + n - d := by omega
  rw [hidx]
  have hpre : (primeList ++ (List.range n).map u).length = 5 + n := by
    simp [primeList]
    omega
  rw [List.getD_append_right _ _ _ _ (by omega)]
  rw [hpre]
  exact getD_replicate_zero _ _

/-- `set_append_replicate` with the index given as a side equation. -/
lemma set_append_replicate_at (l : List ℚ) (m idx : ℕ) (v : ℚ) (hm : 1 ≤ m)
    (hidx : idx = l.length) :
    (l ++ List.replicate m 0).set idx v = l ++ v :: List.replicate (m - 1) 0 := by
  subst hidx
  exact set_append_replicate l m v hm

/-- One write advances the C1 rolling buffer's closed form. -/
lemma c1RB_tick (u : ℕ → ℚ) (n : ℕ) (hn : n ≤ 33) :
    (c1RB u n).tick (u n) = c1RB u (n + 1) := by
  unfold c1RB DelayLine.tick
  dsimp only
  have hlen : ((primeList ++ (List.range n).map u) ++ List.replicate (35 - n) 0).length = 40 := by
    simp [primeList]
    omega
  rw [hlen]
  rw [set_append_replicate_at _ _ _ _ (by omega) (by simp [primeList] <;> omega)]
  rw [show (5 + n + 1) % 40 = 5 + (n + 1) by omega]
  simp [List.range_succ, List.append_assoc] <;> omega

/-- One copy write advances the C1 static buffer's closed form. -/
lemma c1SB_tick (n : ℕ) (hn : n ≤ 19) :
    (c1SB n).tick (sfill n) = c1SB (n + 1) := by
  unfold c1SB DelayLine.tick
  dsimp only
  have hlen : ((List.range n).map sfill ++ List.replicate (20 - n) 0).length = 20 := by
    simp
    omega
  rw [hlen]
  rw [show n % 20 = n by omega]
  rw [set_append_replicate_at _ _ _ _ (by omega) (by simp)]
  simp [List.range_succ, List.append_assoc] <;> omega

/-- What the static copy reads from the rolling buffer on looped tick
`n + 1`. -/
lemma c1_fill_value (u : ℕ → ℚ) (n : ℕ) (hn : n ≤ 19) :
    (c1RB u (n + 1)).read 20 = sfill n := by
  by_cases h : n ≤ 14
  · rw [c1RB_read_zero u (n + 1) 20 (by omega) (by omega) (by norm_num)]
    simp [sfill, h]
  · rw [c1RB_read u (n + 1) 20 (by omega) (by omega)]
    have hidx : 4 + (n + 1) - 20 = n - 15 := by omega
    rw [hidx]
    have hin : n - 15 < primeList.length := by
      simp [primeList]
      omega
    rw [List.getD_append _ _ _ _ hin]
    have h15 : 15 ≤ n := by omega
    interval_cases n <;> simp [primeList, sfill] <;> norm_num

/-- Reading the filled static buffer at delays 0..4 returns the primes. -/
lemma c1SB20_read (dd : ℕ) (h : dd ≤ 4) : (c1SB 20).read dd = 14 - (dd : ℚ) := by
  unfold c1SB DelayLine.read
  have hlen : ((List.range 20).map sfill ++ List.replicate (20 - 20) 0).length = 20 := by
    simp
  rw [hlen]
  have hidx : (20 % 20 + 20 - dd - 1) % 20 = 19 - dd := by omega
  rw [hidx]
  have hin : 19 - dd < ((List.range 20).map sfill).length := by
    simp
    omega
  rw [List.getD_append _ _ _ _ hin, getD_map_range _ _ _ (by omega)]
  have h15 : ¬ (19 - dd ≤ 14) := by omega
  simp only [sfill, if_neg h15]
  have hcast : ((19 - dd : ℕ) : ℚ) = 19 - (dd : ℚ) := by
    have : (dd : ℤ) ≤ 19 := by omega
    push_cast [Nat.cast_sub (by omega : dd ≤ 19)]
    ring
  rw [hcast]
  ring

/-- First tick of the loop grain: fade-in over 0 samples, gain 1. -/
lemma loopGrain_tick_zero : (loopGrain 0).tick = (loopGrain 1, ((4 : ℚ), 1)) := by
  norm_num [loopGrain, Grain.tick, Grain.isFinished, Grain.isWaiting,
    RampedValue.set, RampedValue.ramp, RampedValue.tick, lerp]

/-- Mid-run ticks of the loop grain: gain stays 1, delay slides down. -/
lemma loopGrain_tick_succ (j : ℕ) (h1 : 1 ≤ j) (h2 : j ≤ 4) :
    (loopGrain j).tick = (loopGrain (j + 1), ((4 : ℚ) - j, 1)) := by
  interval_cases j <;>
    norm_num [loopGrain, Grain.tick, Grain.isFinished, Grain.isWaiting,
      RampedValue.tick]

/-- The primed-and-started C1 engine in closed form. -/
lemma c1Start_eq (u : ℕ → ℚ) : c1Start =
    ⟨⟨loopGrain 0 :: List.replicate 9 initGrain, 0, false⟩, true, 10, 5,
      c1RB u 0, c1SB 0, 0, false, 20, 5, 5, 0, 0, ⟨1, 0, 1, 1, 1⟩⟩ := by
  norm_num [c1Start, c1RB, c1SB, primeList, primeIn, loopGrain, initGrain,
    GrainLooper.tickN, GrainLooper.tick, GrainLooper.new_with_length,
    GrainLooper.tick_next_loop_trigger, GrainLooper.tick_static_buffer_copy,
    GrainLooper.ticks_before_switch, GrainLooper.set_fade_time,
    GrainLooper.set_loop_offset, GrainLooper.set_loop_duration,
    GrainLooper.start_looping, GrainPlayerOld.new, GrainPlayerOld.tick,
    GrainPlayerOld.set_fade_time, GrainPlayerOld.schedule_grain, readGrains,
    readGrainsGo, Grain.new, Grain.isFinished, Grain.isWaiting, insertGrain,
    DelayLine.new, DelayLine.tick, DelayLine.read, RampedValue.new,
    RampedValue.set, RampedValue.ramp, RampedValue.tick, samplesOf_zero,
    samplesOf_half, usizeMax, MAX_GRAINS, List.replicate, List.set, Grain.tick]

lemma loopGrain_notFinished (j : ℕ) (h : j ≤ 4) : (loopGrain j).isFinished = false := by
  interval_cases j <;> rfl

lemma loopGrain_notWaiting (j : ℕ) : (loopGrain j).isWaiting = false := rfl

lemma loopGrain5_finished : (loopGrain 5).isFinished = true := rfl

lemma initGrain_finished : initGrain.isFinished = true := rfl

/-- The freshly scheduled C1 loop grain is `loopGrain 0`. -/
lemma c1_fresh_grain : Grain.new 0 (5 : ℚ) 5 0 false 1 = loopGrain 0 := by
  norm_num [Grain.new, loopGrain, RampedValue.new]

/-- The settled dry ramp of the looping phase returns 0 forever. -/
lemma c1_dry_tick : (⟨0, 0, 1, 0, 1⟩ : RampedValue).tick = (⟨0, 0, 1, 0, 1⟩, 0) := rfl

/-- Reading the rolling buffer `r` cycles into the loop returns prime
`10 + r`. -/
lemma c1RB_read_prime (u : ℕ → ℚ) (n r : ℕ) (hn : n ≤ 34) (hr : r ≤ 4) :
    (c1RB u (n + 1)).read (n + 5 - r) = (10 : ℚ) + r := by
  rw [c1RB_read u (n + 1) (n + 5 - r) (by omega) (by omega)]
  rw [show 4 + (n + 1) - (n + 5 - r) = r by omega]
  have hin : r < primeList.length := by
    simp [primeList]
    omega
  rw [List.getD_append _ _ _ _ hin]
  interval_cases r <;> simp [primeList] <;> norm_num

/-- One read pass of the looping phase, mid-cycle (`1 ≤ r ≤ 4`). -/
lemma c1_readA (u : ℕ → ℚ) (n r : ℕ) (hn : n ≤ 19) (h1 : 1 ≤ r) (h2 : r ≤ 4) :
    readGrains (loopGrain r :: List.replicate 9 initGrain) (c1RB u (n + 1)) (n + 1) =
      (loopGrain (r + 1) :: List.replicate 9 initGrain, (10 : ℚ) + r) := by
  rw [readGrains_single _ _ _ _ (loopGrain_notFinished r (by omega))
    (loopGrain_notWaiting r) (fun x hx => by rw [List.eq_of_mem_replicate hx]; rfl)]
  rw [loopGrain_tick_succ r h1 h2]
  dsimp only
  rw [show (4 : ℚ) - (r : ℚ) + ((n + 1 : ℕ) : ℚ) = ((n + 5 - r : ℕ) : ℚ) by
    push_cast [Nat.cast_sub (show r ≤ n + 5 by omega)]
    ring]
  rw [DelayLine.read_interpolated_nat, c1RB_read_prime u n r (by omega) h2]
  norm_num

/-- One read pass of the looping phase at a cycle boundary (fresh grain). -/
lemma c1_readA0 (u : ℕ → ℚ) (n : ℕ) (hn : n ≤ 19) :
    readGrains (loopGrain 0 :: List.replicate 9 initGrain) (c1RB u (n + 1)) (n + 1) =
      (loopGrain 1 :: List.replicate 9 initGrain, (10 : ℚ)) := by
  rw [readGrains_single _ _ _ _ (loopGrain_notFinished 0 (by omega))
    (loopGrain_notWaiting 0) (fun x hx => by rw [List.eq_of_mem_replicate hx]; rfl)]
  rw [loopGrain_tick_zero]
  dsimp only
  rw [show (4 : ℚ) + ((n + 1 : ℕ) : ℚ) = ((n + 5 - 0 : ℕ) : ℚ) by
    push_cast [Nat.cast_sub (show 0 ≤ n + 5 by omega)]
    ring]
  rw [DelayLine.read_interpolated_nat, c1RB_read_prime u n 0 (by omega) (by omega)]
  norm_num

/-- The start-fade dry ramp settles to 0 on its first tick (fade 0). -/
lemma c1_dry_first : (⟨1, 0, 1, 1, 1⟩ : RampedValue).tick = (⟨0, 0, 1, 0, 1⟩, 0) := by
  norm_num [RampedValue.tick, lerp]

/-- The first looped tick: output 10, state advances to `c1State u 1`. -/
lemma c1_tick_first (u : ℕ → ℚ) :
    c1Start.tick (u 0) = (c1State u 1, 10) := by
  rw [c1Start_eq u]
  have hrb := c1RB_tick u 0 (by omega)
  have hfill := c1_fill_value u 0 (by omega)
  have hsb := c1SB_tick 0 (by omega)
  have hread := c1_readA0 u 0 (by omega)
  norm_num at hrb hfill hsb hread
  norm_num [GrainLooper.tick, GrainLooper.tick_next_loop_trigger,
    GrainLooper.tick_static_buffer_copy, GrainLooper.ticks_before_switch,
    GrainPlayerOld.tick, hrb, hfill, hsb, hread, c1_dry_first, c1State]

/-- One looped tick in closed form, `1 ≤ n < 20`: the output is the prime
`10 + (n % 5)` regardless of the live input. -/
lemma c1_stepA (u : ℕ → ℚ) (n : ℕ) (h1 : 1 ≤ n) (h2 : n < 20) :
    (c1State u n).tick (u n) = (c1State u (n + 1), 10 + ((n % 5 : ℕ) : ℚ)) := by
  have hrb := c1RB_tick u n (by omega)
  have hfill := c1_fill_value u n (by omega)
  have hsb := c1SB_tick n (by omega)
  have husn : decide (20 ≤ n) = false := by
    simp
    omega
  have hr5 : n % 5 = 0 ∨ n % 5 = 1 ∨ n % 5 = 2 ∨ n % 5 = 3 ∨ n % 5 = 4 := by omega
  rcases hr5 with hr | hr | hr | hr | hr
  · have hjj : (n - 1) % 5 = 4 := by omega
    have hread := c1_readA0 u n (by omega)
    by_cases h20 : 20 ≤ n + 1
    · exfalso
      omega
    · norm_num [c1State, hjj, hr, husn, GrainLooper.tick,
        GrainLooper.tick_next_loop_trigger, GrainLooper.tick_static_buffer_copy,
        GrainLooper.ticks_before_switch, GrainPlayerOld.tick,
        GrainPlayerOld.schedule_grain, insertGrain, loopGrain5_finished,
        c1_fresh_grain, hrb, hfill, hsb, hread, c1_dry_tick, h20]
  · have hjj : (n - 1) % 5 = 0 := by omega
    have hread := c1_readA u n 1 (by omega) (by omega) (by omega)
    by_cases h20 : 20 ≤ n + 1
    · exfalso
      omega
    · norm_num [c1State, hjj, hr, husn, GrainLooper.tick,
        GrainLooper.tick_next_loop_trigger, GrainLooper.tick_static_buffer_copy,
        GrainLooper.ticks_before_switch, GrainPlayerOld.tick, hrb, hfill, hsb,
        hread, c1_dry_tick, h20]
  · have hjj : (n - 1) % 5 = 1 := by omega
    have hread := c1_readA u n 2 (by omega) (by omega) (by omega)
    by_cases h20 : 20 ≤ n + 1
    · exfalso
      omega
    · norm_num [c1State, hjj, hr, husn, GrainLooper.tick,
        GrainLooper.tick_next_loop_trigger, GrainLooper.tick_static_buffer_copy,
        GrainLooper.ticks_before_switch, GrainPlayerOld.tick, hrb, hfill, hsb,
        hread, c1_dry_tick, h20]
  · have hjj : (n - 1) % 5 = 2 := by omega
    have hread := c1_readA u n 3 (by omega) (by omega) (by omega)
    by_cases h20 : 20 ≤ n + 1
    · exfalso
      omega
    · norm_num [c1State, hjj, hr, husn, GrainLooper.tick,
        GrainLooper.tick_next_loop_trigger, GrainLooper.tick_static_buffer_copy,
        GrainLooper.ticks_before_switch, GrainPlayerOld.tick, hrb, hfill, hsb,
        hread, c1_dry_tick, h20]
  · have hjj : (n - 1) % 5 = 3 := by omega
    have hread := c1_readA u n 4 (by omega) (by omega) (by omega)
    by_cases h20 : 20 ≤ n + 1
    · norm_num [c1State, hjj, hr, husn, GrainLooper.tick,
        GrainLooper.tick_next_loop_trigger, GrainLooper.tick_static_buffer_copy,
        GrainLooper.ticks_before_switch, GrainPlayerOld.tick, hrb, hfill, hsb,
        hread, c1_dry_tick, h20]
    · norm_num [c1State, hjj, hr, husn, GrainLooper.tick,
        GrainLooper.tick_next_loop_trigger, GrainLooper.tick_static_buffer_copy,
        GrainLooper.ticks_before_switch, GrainPlayerOld.tick, hrb, hfill, hsb,
        hread, c1_dry_tick, h20]

/-- Phase-A chain: the closed form holds for every looped tick count up
to the static handoff. -/
lemma c1_phaseA (u : ℕ → ℚ) : ∀ n, 1 ≤ n → n ≤ 20 → c1Start.tickN u n = c1State u n := by
  intro n
  induction n with
  | zero => intro h _; omega
  | succ n ih =>
    intro _ hn
    by_cases hn0 : n = 0
    · subst hn0
      show (c1Start.tick (u 0)).1 = c1State u 1
      rw [c1_tick_first u]
    · have h1n : 1 ≤ n := by omega
      show ((c1Start.tickN u n).tick (u n)).1 = c1State u (n + 1)
      rw [ih h1n (by omega), c1_stepA u n h1n (by omega)]

/-- Steady looping state over the static buffer, at cycle phase `k`. -/
def c1PhB (X : GrainLooper) (k : ℕ) : Prop :=
  X.grain_player = ⟨loopGrain (if k = 0 then 5 else k) :: List.replicate 9 initGrain, 0, false⟩ ∧
  X.ticks_till_next_loop = (5 - k) % 5 ∧
  X.static_buffer = c1SB 20 ∧
  X.use_static_buffer = true ∧
  X.is_looping = true ∧
  X.loop_offset = 5 ∧ X.loop_duration = 5 ∧ X.fade_duration = 0 ∧
  X.fade_allowance = 0 ∧ X.dry_ramp = ⟨0, 0, 1, 0, 1⟩

/-- One static-phase read pass, mid-cycle. -/
lemma c1_readB (r : ℕ) (h1 : 1 ≤ r) (h2 : r ≤ 4) :
    readGrains (loopGrain r :: List.replicate 9 initGrain) (c1SB 20) 0 =
      (loopGrain (r + 1) :: List.replicate 9 initGrain, (10 : ℚ) + r) := by
  rw [readGrains_single _ _ _ _ (loopGrain_notFinished r (by omega))
    (loopGrain_notWaiting r) (fun x hx => by rw [List.eq_of_mem_replicate hx]; rfl)]
  rw [loopGrain_tick_succ r h1 h2]
  dsimp only
  rw [show (4 : ℚ) - (r : ℚ) + ((0 : ℕ) : ℚ) = ((4 - r : ℕ) : ℚ) by
    push_cast [Nat.cast_sub (show r ≤ 4 by omega)]
    ring]
  rw [DelayLine.read_interpolated_nat, c1SB20_read (4 - r) (by omega)]
  rw [show ((4 - r : ℕ) : ℚ) = 4 - (r : ℚ) by
    push_cast [Nat.cast_sub (show r ≤ 4 by omega)]
    ring]
  norm_num
  ring

/-- One static-phase read pass at a cycle boundary. -/
lemma c1_readB0 :
    readGrains (loopGrain 0 :: List.replicate 9 initGrain) (c1SB 20) 0 =
      (loopGrain 1 :: List.replicate 9 initGrain, (10 : ℚ)) := by
  rw [readGrains_single _ _ _ _ (loopGrain_notFinished 0 (by omega))
    (loopGrain_notWaiting 0) (fun x hx => by rw [List.eq_of_mem_replicate hx]; rfl)]
  rw [loopGrain_tick_zero]
  dsimp only
  rw [show (4 : ℚ) + ((0 : ℕ) : ℚ) = ((4 : ℕ) : ℚ) by norm_num]
  rw [DelayLine.read_interpolated_nat, c1SB20_read 4 (by omega)]
  norm_num

/-- A read pass over the finished pool changes nothing and reads silence. -/
lemma c1_read_finished (dl : DelayLine) (off : ℕ) :
    readGrains (loopGrain 5 :: List.replicate 9 initGrain) dl off =
      (loopGrain 5 :: List.replicate 9 initGrain, 0) := by
  rw [readGrains]
  refine readGrainsGo_finished dl off _ (fun g hg => ?_) 0
  rcases List.mem_cons.mp hg with h | h
  · rw [h]
    rfl
  · rw [List.eq_of_mem_replicate h]
    rfl

/-- One tick of the steady static phase: the phase advances mod 5 and the
output is the prime `10 + k`, for every live input. -/
lemma c1PhB_step (X : GrainLooper) (k : ℕ) (x : ℚ) (hk : k < 5) (h : c1PhB X k) :
    c1PhB ((X.tick x).1) ((k + 1) % 5) ∧ (X.tick x).2 = 10 + ((k % 5 : ℕ) : ℚ) := by
  obtain ⟨hp, ht, hsb, hus, hil, hlo, hld, hfd, hfa, hdr⟩ := h
  obtain ⟨⟨gr, pf, pr⟩, il, sr, tt, rb, sb, ro, us, lrl, lo, ld, fd, fa, dr⟩ := X
  dsimp at hp ht hsb hus hil hlo hld hfd hfa hdr
  rw [GrainPlayerOld.mk.injEq] at hp
  obtain ⟨hgr, hpf, hpr⟩ := hp
  subst hgr hpf hpr il tt sb us lo ld fd fa dr
  interval_cases k
  · have hread := c1_readB0
    simp only [List.replicate_succ, List.replicate] at hread
    norm_num [GrainLooper.tick, GrainLooper.tick_next_loop_trigger,
      GrainLooper.tick_static_buffer_copy, GrainPlayerOld.tick,
      GrainPlayerOld.schedule_grain, insertGrain, loopGrain5_finished,
      c1_fresh_grain, hread, c1_dry_tick, c1PhB, List.replicate]
  · have hread := c1_readB 1 (by omega) (by omega)
    simp only [List.replicate_succ, List.replicate] at hread
    norm_num [GrainLooper.tick, GrainLooper.tick_next_loop_trigger,
      GrainLooper.tick_static_buffer_copy, GrainPlayerOld.tick,
      hread, c1_dry_tick, c1PhB, List.replicate]
  · have hread := c1_readB 2 (by omega) (by omega)
    simp only [List.replicate_succ, List.replicate] at hread
    norm_num [GrainLooper.tick, GrainLooper.tick_next_loop_trigger,
      GrainLooper.tick_static_buffer_copy, GrainPlayerOld.tick,
      hread, c1_dry_tick, c1PhB, List.replicate]
  · have hread := c1_readB 3 (by omega) (by omega)
    simp only [List.replicate_succ, List.replicate] at hread
    norm_num [GrainLooper.tick, GrainLooper.tick_next_loop_trigger,
      GrainLooper.tick_static_buffer_copy, GrainPlayerOld.tick,
      hread, c1_dry_tick, c1PhB, List.replicate]
  · have hread := c1_readB 4 (by omega) (by omega)
    simp only [List.replicate_succ, List.replicate] at hread
    norm_num [GrainLooper.tick, GrainLooper.tick_next_loop_trigger,
      GrainLooper.tick_static_buffer_copy, GrainPlayerOld.tick,
      hread, c1_dry_tick, c1PhB, List.replicate]

/-- Phase-B chain: from the handoff on, the loop cycles with period 5. -/
lemma c1_phaseB (u : ℕ → ℚ) :
    ∀ m, c1PhB (c1Start.tickN u (20 + m)) (m % 5) := by
  intro m
  induction m with
  | zero =>
    rw [c1_phaseA u 20 (by omega) (by omega)]
    unfold c1PhB c1State
    norm_num
  | succ m ih =>
    have h := c1PhB_step _ (m % 5) (u (20 + m)) (by omega) ih
    have heq : 20 + (m + 1) = (20 + m) + 1 := by omega
    rw [heq]
    show c1PhB ((c1Start.tickN u (20 + m)).tick (u (20 + m))).1 ((m + 1) % 5)
    rw [show (m + 1) % 5 = (m % 5 + 1) % 5 by omega]
    exact h.1

/-- The output of every steady-phase tick. -/
lemma c1_outB (u : ℕ → ℚ) (m : ℕ) :
    ((c1Start.tickN u (20 + m)).tick (u (20 + m))).2 = 10 + (((m % 5 : ℕ) % 5 : ℕ) : ℚ) :=
  (c1PhB_step _ (m % 5) (u (20 + m)) (by omega) (c1_phaseB u m)).2

/-- The C1 engine at the moment looping is stopped (after 20 looped
ticks). -/
def c1Stop (u : ℕ → ℚ) : GrainLooper := (c1Start.tickN u 20).stop_looping

lemma c1Stop_eq (u : ℕ → ℚ) : c1Stop u =
    ⟨⟨loopGrain 5 :: List.replicate 9 initGrain, 0, false⟩, false, 10, usizeMax,
      c1RB u 20, c1SB 20, 20, true, 20, 5, 5, 0, 0, ⟨0, 1, 0, 1, 1⟩⟩ := by
  unfold c1Stop
  rw [c1_phaseA u 20 (by omega) (by omega)]
  unfold c1State GrainLooper.stop_looping GrainPlayerOld.stop_all_grains
  norm_num [Grain.stop, loopGrain, initGrain, Grain.new, RampedValue.set,
    RampedValue.ramp, List.replicate]

/-- Post-stop steady state after `k ≥ 1` stopped ticks. -/
def c1PS (X : GrainLooper) (k : ℕ) : Prop :=
  X.grain_player = ⟨loopGrain 5 :: List.replicate 9 initGrain, 0, false⟩ ∧
  X.ticks_till_next_loop = usizeMax - k ∧
  X.static_buffer = c1SB 20 ∧
  X.use_static_buffer = true ∧
  X.is_looping = false ∧
  X.loop_offset = 5 ∧ X.loop_duration = 5 ∧ X.fade_duration = 0 ∧
  X.fade_allowance = 0 ∧ X.dry_ramp = ⟨1, 1, 0, 0, 1⟩

/-- The stop-fade dry ramp returns to 1 on its first tick (fade 0). -/
lemma c1_dry_post : (⟨0, 1, 0, 1, 1⟩ : RampedValue).tick = (⟨1, 1, 0, 0, 1⟩, 1) := by
  norm_num [RampedValue.tick, lerp]

/-- The settled dry ramp of the stopped phase returns 1 forever. -/
lemma c1_dry_steady : (⟨1, 1, 0, 0, 1⟩ : RampedValue).tick = (⟨1, 1, 0, 0, 1⟩, 1) := rfl

/-- The first stopped tick: dry passthrough, state enters `c1PS 1`. -/
lemma c1PS_first (u : ℕ → ℚ) (x : ℚ) :
    c1PS ((c1Stop u).tick x).1 1 ∧ ((c1Stop u).tick x).2 = x := by
  rw [c1Stop_eq u]
  have husz : ¬ (usizeMax = 0) := by norm_num [usizeMax]
  have hread := c1_read_finished (c1SB 20) 0
  simp only [List.replicate_succ, List.replicate] at hread
  norm_num [GrainLooper.tick, GrainLooper.tick_next_loop_trigger,
    GrainLooper.tick_static_buffer_copy, GrainPlayerOld.tick, hread,
    c1_dry_post, c1PS, husz, List.replicate]

/-- Stopped ticks before the sentinel runs out: dry passthrough. -/
lemma c1PS_step (X : GrainLooper) (k : ℕ) (x : ℚ) (h : c1PS X k) (hk : k < usizeMax) :
    c1PS ((X.tick x).1) (k + 1) ∧ (X.tick x).2 = x := by
  obtain ⟨hp, ht, hsb, hus, hil, hlo, hld, hfd, hfa, hdr⟩ := h
  obtain ⟨⟨gr, pf, pr⟩, il, sr, tt, rb, sb, ro, us, lrl, lo, ld, fd, fa, dr⟩ := X
  dsimp at hp ht hsb hus hil hlo hld hfd hfa hdr
  rw [GrainPlayerOld.mk.injEq] at hp
  obtain ⟨hgr, hpf, hpr⟩ := hp
  subst hgr hpf hpr il tt sb us lo ld fd fa dr
  have httz : ¬ (usizeMax - k = 0) := by omega
  have hread := c1_read_finished (c1SB 20) 0
  simp only [List.replicate_succ, List.replicate] at hread
  norm_num [GrainLooper.tick, GrainLooper.tick_next_loop_trigger,
    GrainLooper.tick_static_buffer_copy, GrainPlayerOld.tick, hread,
    c1_dry_steady, c1PS, httz, List.replicate] <;> omega

/-- The tick on which the sentinel reaches zero: the code schedules a new
grain although looping is off, and the loop content leaks into the
output. -/
lemma c1PS_zombie (X : GrainLooper) (x : ℚ) (h : c1PS X usizeMax) :
    (X.tick x).2 = 10 + x := by
  obtain ⟨hp, ht, hsb, hus, hil, hlo, hld, hfd, hfa, hdr⟩ := h
  obtain ⟨⟨gr, pf, pr⟩, il, sr, tt, rb, sb, ro, us, lrl, lo, ld, fd, fa, dr⟩ := X
  dsimp at hp ht hsb hus hil hlo hld hfd hfa hdr
  rw [GrainPlayerOld.mk.injEq] at hp
  obtain ⟨hgr, hpf, hpr⟩ := hp
  subst hgr hpf hpr il tt sb us lo ld fd fa dr
  have hread := c1_readB0
  simp only [List.replicate_succ, List.replicate] at hread
  norm_num [GrainLooper.tick, GrainLooper.tick_next_loop_trigger,
    GrainLooper.tick_static_buffer_copy, GrainPlayerOld.tick,
    GrainPlayerOld.schedule_grain, insertGrain, loopGrain5_finished,
    c1_fresh_grain, hread, c1_dry_steady, List.replicate]

/-- Post-stop chain up to the sentinel. -/
lemma c1PS_chain (u w : ℕ → ℚ) :
    ∀ k, 1 ≤ k → k ≤ usizeMax → c1PS ((c1Stop u).tickN w k) k := by
  intro k
  induction k with
  | zero => intro h _; omega
  | succ k ih =>
    intro _ hk
    by_cases hk0 : k = 0
    · subst hk0
      show c1PS ((c1Stop u).tick (w 0)).1 1
      exact (c1PS_first u (w 0)).1
    · have h1 := ih (by omega) (by omega)
      show c1PS (((c1Stop u).tickN w k).tick (w k)).1 (k + 1)
      exact (c1PS_step _ k (w k) h1 (by omega)).1

/-- **C1** (amended).  End-to-end loop cycle at sample rate 10: after
priming with `[10..14]`, fade 0, offset 0.5 s, duration 0.5 s and
`start_looping(0)`, every looped tick outputs the primed sequence
`10,11,12,13,14` repeating — for every live input stream, forever (part
one).  After `stop_looping()` (here after 20 looped ticks), the output
equals the unmodified live input — but only for the first
`usize::MAX − 1` ticks, not forever as claimed: `tick_next_loop_trigger`
decrements the `usize::MAX` sentinel on every tick with no `is_looping`
guard, so the 2^64-th stopped tick re-schedules a loop grain (see the
counterexample). -/
theorem grain_looper_loop_cycle_amended (u w : ℕ → ℚ) :
    (∀ n : ℕ, ((c1Start.tickN u n).tick (u n)).2 = 10 + ((n % 5 : ℕ) : ℚ)) ∧
    (∀ k : ℕ, k < usizeMax →
      (((c1Stop u).tickN w k).tick (w k)).2 = w k) := by
  constructor
  · intro n
    by_cases hn : n < 20
    · by_cases hn0 : n = 0
      · subst hn0
        show (c1Start.tick (u 0)).2 = 10 + ((0 % 5 : ℕ) : ℚ)
        rw [c1_tick_first u]
        norm_num
      · rw [c1_phaseA u n (by omega) (by omega), c1_stepA u n (by omega) (by omega)]
    · have hm : n = 20 + (n - 20) := by omega
      rw [hm, show (20 + (n - 20)) % 5 = ((n - 20) % 5) % 5 by omega]
      exact c1_outB u (n - 20)
  · intro k hk
    by_cases hk0 : k = 0
    · subst hk0
      show ((c1Stop u).tick (w 0)).2 = w 0
      exact (c1PS_first u (w 0)).2
    · have h1 := c1PS_chain u w k (by omega) (by omega)
      exact (c1PS_step _ k (w k) h1 (by omega)).2

/-- **C1 counterexample**.  With silence fed after `stop_looping`, the
2^64-th stopped tick outputs 10 — the first primed sample, replayed by the
zombie grain the expired sentinel schedules — instead of the live input 0
that the claim promises for every post-stop tick. -/
theorem grain_looper_post_stop_retrigger_counterexample :
    (((c1Stop (fun _ => 0)).tickN (fun _ => 0) usizeMax).tick
        ((fun _ => (0 : ℚ)) usizeMax)).2 = 10 ∧ (10 : ℚ) ≠ 0 := by
  constructor
  · have h := c1PS_chain (fun _ => 0) (fun _ => 0) usizeMax
      (by norm_num [usizeMax]) (le_refl _)
    have hz := c1PS_zombie _ ((fun _ => (0 : ℚ)) usizeMax) h
    simpa using hz
  · norm_num

/-- Witness for the amended C1 at the all-silent input streams: the first
looped tick outputs 10, and the first stopped tick passes the live input
through. -/
theorem grain_looper_loop_cycle_amended_witness :
    ((c1Start.tickN (fun _ => 0) 0).tick ((fun _ => (0 : ℚ)) 0)).2 =
      10 + ((0 % 5 : ℕ) : ℚ) ∧
    (((c1Stop (fun _ => 0)).tickN (fun _ => 0) 0).tick ((fun _ => (0 : ℚ)) 0)).2 =
      (fun _ => (0 : ℚ)) 0 :=
  ⟨(grain_looper_loop_cycle_amended (fun _ => 0) (fun _ => 0)).1 0,
   (grain_looper_loop_cycle_amended (fun _ => 0) (fun _ => 0)).2 0
     (by norm_num [usizeMax])⟩

end Metaloop
